import Mathlib

/-
  Verification of the Concierge-Analyzer conversation reconstruction,
  persona-matching and debug-insight core (concierge_parser.py and
  debug_analyzer.py) against its natural-language specification.

  Python strings are modelled as lists of characters (ASCII case folding;
  the transcripts and reference data exercised here are ASCII apart from
  fixed marker characters, which are carried verbatim).  Python integers
  are Nat/Int, Python floats produced by the code under study are ratios
  of small integers and are modelled exactly as rationals.  Fallible code
  is modelled with Option/Except.
-/

namespace Concierge

/-- Python str values, modelled as lists of characters. -/
abbrev Str := List Char

/-- Whitespace recognised by Python str.strip and str.split (ASCII part). -/
def pyIsSpace (c : Char) : Bool :=
  c == ' ' || c == '\t' || c == '\n' || c == '\r' || c == '\x0b' || c == '\x0c'

/-- Python str.strip with no arguments: trim whitespace from both ends. -/
def pyStrip (s : Str) : Str :=
  ((s.dropWhile pyIsSpace).reverse.dropWhile pyIsSpace).reverse

/-- Python str.rstrip(chars): trim the given characters from the right end. -/
def pyRStrip (cs : List Char) (s : Str) : Str :=
  (s.reverse.dropWhile (fun c => cs.contains c)).reverse

/-- Python str.lower restricted to ASCII letters. -/
def pyLower (s : Str) : Str :=
  s.map Char.toLower

/-- Helper for pySplitWs, accumulating the current word in reverse. -/
def splitWsAux : Str → Str → List Str
  | [], acc => if acc.isEmpty then [] else [acc.reverse]
  | c :: rest, acc =>
    if pyIsSpace c then
      if acc.isEmpty then splitWsAux rest [] else acc.reverse :: splitWsAux rest []
    else splitWsAux rest (c :: acc)

/-- Python str.split with no arguments: split on whitespace runs, dropping
empty pieces. -/
def pySplitWs (s : Str) : List Str :=
  splitWsAux s []

/-- Python substring containment, the `needle in haystack` test. -/
def pyContainsSub (needle : Str) : Str → Bool
  | [] => needle.isEmpty
  | c :: rest => needle.isPrefixOf (c :: rest) || pyContainsSub needle rest

/-- Python str.startswith. -/
def pyStartsWith (pre s : Str) : Bool :=
  pre.isPrefixOf s

/-- Worker for str.replace, structurally recursive on a fuel argument;
every recursive call consumes at least one character of the subject, so
fuel equal to the subject length is ample and the fuel-exhausted case is
never reached on the intended calls. -/
def pyReplaceF (old new : Str) : Nat → Str → Str
  | _, [] => []
  | 0, s => s
  | fuel + 1, c :: rest =>
    if old.isPrefixOf (c :: rest) ∧ old ≠ [] then
      new ++ pyReplaceF old new fuel ((c :: rest).drop old.length)
    else
      c :: pyReplaceF old new fuel rest

/-- Python str.replace(old, new): replace every non-overlapping occurrence,
scanning left to right.  The sources only call it with a non-empty old. -/
def pyReplace (old new s : Str) : Str :=
  pyReplaceF old new s.length s

/-- Worker for str.split, structurally recursive on a fuel argument with
the same sufficiency argument as pyReplaceF. -/
def pySplitSubF (sep : Str) : Nat → Str → List Str
  | _, [] => [[]]
  | 0, _ => [[]]
  | fuel + 1, c :: rest =>
    if sep.isPrefixOf (c :: rest) ∧ sep ≠ [] then
      [] :: pySplitSubF sep fuel ((c :: rest).drop sep.length)
    else
      match pySplitSubF sep fuel rest with
      | [] => [[c]]
      | w :: ws => (c :: w) :: ws

/-- Python str.split(sep) for a non-empty separator. -/
def pySplitSub (sep s : Str) : List Str :=
  pySplitSubF sep s.length s

/-- Numeric value of a decimal digit character. -/
def digitVal (c : Char) : Nat :=
  c.toNat - '0'.toNat

/-- Result of datetime.strptime with format %Y-%m-%d, %I:%M:%S %p, after
conversion of the 12-hour clock to a 24-hour one. -/
structure PyDateTime where
  year : Nat
  month : Nat
  day : Nat
  hour : Nat
  minute : Nat
  second : Nat
deriving DecidableEq, Repr

/-- Field regex 1[0-2]|0[1-9]|[1-9] used by strptime for %m and %I.  The
two-digit branches require a digit in second position while the literal that
follows in the format is never a digit, so committing to the longest branch
is equivalent to the backtracking the Python regex engine performs. -/
def parseField12 : Str → Option (Nat × Str)
  | c1 :: c2 :: rest =>
    if c1 == '1' && ('0' ≤ c2 && c2 ≤ '2') then some (10 + digitVal c2, rest)
    else if c1 == '0' && ('1' ≤ c2 && c2 ≤ '9') then some (digitVal c2, rest)
    else if '1' ≤ c1 && c1 ≤ '9' then some (digitVal c1, c2 :: rest)
    else none
  | [c1] => if '1' ≤ c1 && c1 ≤ '9' then some (digitVal c1, []) else none
  | [] => none

/-- Field regex 3[01]|[12]\d|0[1-9]|[1-9] used by strptime for %d. -/
def parseField31 : Str → Option (Nat × Str)
  | c1 :: c2 :: rest =>
    if c1 == '3' && (c2 == '0' || c2 == '1') then some (30 + digitVal c2, rest)
    else if (c1 == '1' || c1 == '2') && c2.isDigit then
      some (10 * digitVal c1 + digitVal c2, rest)
    else if c1 == '0' && ('1' ≤ c2 && c2 ≤ '9') then some (digitVal c2, rest)
    else if '1' ≤ c1 && c1 ≤ '9' then some (digitVal c1, c2 :: rest)
    else none
  | [c1] => if '1' ≤ c1 && c1 ≤ '9' then some (digitVal c1, []) else none
  | [] => none

/-- Field regex [0-5]\d|\d used by strptime for %M. -/
def parseField59 : Str → Option (Nat × Str)
  | c1 :: c2 :: rest =>
    if ('0' ≤ c1 && c1 ≤ '5') && c2.isDigit then
      some (10 * digitVal c1 + digitVal c2, rest)
    else if c1.isDigit then some (digitVal c1, c2 :: rest)
    else none
  | [c1] => if c1.isDigit then some (digitVal c1, []) else none
  | [] => none

/-- Field regex 6[0-1]|[0-5]\d|\d used by strptime for %S. -/
def parseField61 : Str → Option (Nat × Str)
  | c1 :: c2 :: rest =>
    if c1 == '6' && (c2 == '0' || c2 == '1') then some (60 + digitVal c2, rest)
    else if ('0' ≤ c1 && c1 ≤ '5') && c2.isDigit then
      some (10 * digitVal c1 + digitVal c2, rest)
    else if c1.isDigit then some (digitVal c1, c2 :: rest)
    else none
  | [c1] => if c1.isDigit then some (digitVal c1, []) else none
  | [] => none

/-- Field regex \d\d\d\d used by strptime for %Y. -/
def parseYear4 : Str → Option (Nat × Str)
  | a :: b :: c :: d :: rest =>
    if a.isDigit && b.isDigit && c.isDigit && d.isDigit then
      some (1000 * digitVal a + 100 * digitVal b + 10 * digitVal c + digitVal d, rest)
    else none
  | _ => none

/-- A single literal character of the strptime format. -/
def parseLit (c : Char) : Str → Option Str
  | d :: rest => if d == c then some rest else none
  | [] => none

/-- Field regex AM|PM with re.IGNORECASE, used by strptime for %p.  Returns
true for PM. -/
def parseAmPm : Str → Option (Bool × Str)
  | c1 :: c2 :: rest =>
    if (c1 == 'A' || c1 == 'a') && (c2 == 'M' || c2 == 'm') then some (false, rest)
    else if (c1 == 'P' || c1 == 'p') && (c2 == 'M' || c2 == 'm') then some (true, rest)
    else none
  | _ => none

/-- Gregorian leap year rule, as used by datetime. -/
def isLeapYear (y : Nat) : Bool :=
  (y % 4 == 0 && y % 100 != 0) || y % 400 == 0

/-- Length of a month, as validated by the datetime constructor. -/
def daysInMonth (y m : Nat) : Nat :=
  if m == 2 then (if isLeapYear y then 29 else 28)
  else if m == 4 || m == 6 || m == 9 || m == 11 then 30
  else 31

/-- datetime.strptime(s, %Y-%m-%d, %I:%M:%S %p): match the whole string
against the fixed format, then apply the datetime constructor validation
(year at least 1, day within the month, second at most 59) and convert the
12-hour clock.  Returns none exactly when Python raises ValueError. -/
def strptimeFixed (s : Str) : Option PyDateTime := do
  let (y, s) ← parseYear4 s
  let s ← parseLit '-' s
  let (m, s) ← parseField12 s
  let s ← parseLit '-' s
  let (d, s) ← parseField31 s
  let s ← parseLit ',' s
  let s ← parseLit ' ' s
  let (h12, s) ← parseField12 s
  let s ← parseLit ':' s
  let (mi, s) ← parseField59 s
  let s ← parseLit ':' s
  let (sec, s) ← parseField61 s
  let s ← parseLit ' ' s
  let (pm, s) ← parseAmPm s
  if s = [] ∧ 1 ≤ y ∧ d ≤ daysInMonth y m ∧ sec ≤ 59 then
    let hour := if pm then (if h12 == 12 then 12 else h12 + 12)
                else (if h12 == 12 then 0 else h12)
    some ⟨y, m, d, hour, mi, sec⟩
  else
    none

/-
  A small backtracking regular-expression engine.  The extraction patterns
  of the source are transcribed below as syntax trees and executed with
  Python re semantics: leftmost match, ordered alternation, greedy and lazy
  repetition, zero-width lookahead, numbered capture groups, and a dollar
  anchor that accepts the end of the string or the position just before a
  final newline.  The engine is only ever evaluated on concrete inputs.
-/

/-- Regex syntax.  cls true cs rs is a character class accepting the listed
characters and ranges, cls false cs rs its negation.  star true is greedy,
star false lazy. -/
inductive RE where
  | eps
  | lit (c : Char)
  | cls (mem : Bool) (cs : List Char) (ranges : List (Char × Char))
  | cat (a b : RE)
  | alt (a b : RE)
  | star (greedy : Bool) (a : RE)
  | look (a : RE)
  | grp (n : Nat) (a : RE)
  | dollar

/-- Membership test of a character class. -/
def clsTest (mem : Bool) (cs : List Char) (ranges : List (Char × Char)) (c : Char) : Bool :=
  (cs.contains c || ranges.any (fun r => r.1 ≤ c && c ≤ r.2)) == mem

/-- Recorded captures: group number, start offset, end offset; most recent
first. -/
abbrev Caps := List (Nat × Nat × Nat)

/-- Backtracking matcher in continuation-passing style.  The fuel argument
only bounds the recursion depth; callers supply enough for the inputs they
evaluate on. -/
def reRun (s : Str) :
    Nat → RE → Nat → Caps → (Nat → Caps → Option (Nat × Caps)) → Option (Nat × Caps)
  | 0, _, _, _, _ => none
  | fuel + 1, re, pos, caps, k =>
    match re with
    | .eps => k pos caps
    | .lit c =>
      match s[pos]? with
      | some d => if d == c then k (pos + 1) caps else none
      | none => none
    | .cls mem cs rs =>
      match s[pos]? with
      | some d => if clsTest mem cs rs d then k (pos + 1) caps else none
      | none => none
    | .cat a b => reRun s fuel a pos caps (fun p c => reRun s fuel b p c k)
    | .alt a b =>
      match reRun s fuel a pos caps k with
      | some r => some r
      | none => reRun s fuel b pos caps k
    | .star greedy a =>
      if greedy then
        match reRun s fuel a pos caps (fun p c =>
            if p == pos then none else reRun s fuel (.star true a) p c k) with
        | some r => some r
        | none => k pos caps
      else
        match k pos caps with
        | some r => some r
        | none => reRun s fuel a pos caps (fun p c =>
            if p == pos then none else reRun s fuel (.star false a) p c k)
    | .look a =>
      match reRun s fuel a pos caps (fun p c => some (p, c)) with
      | some _ => k pos caps
      | none => none
    | .grp n a => reRun s fuel a pos caps (fun p c => k p ((n, pos, p) :: c))
    | .dollar =>
      if pos == s.length || (pos + 1 == s.length && s[pos]? == some '\n') then k pos caps
      else none

/-- Structural size of a regex, used to budget matcher fuel. -/
def reSize : RE → Nat
  | .eps | .dollar | .lit _ | .cls _ _ _ => 1
  | .cat a b | .alt a b => reSize a + reSize b + 1
  | .star _ a | .look a | .grp _ a => reSize a + 1

/-- Fuel budget that is ample for the short strings evaluated here. -/
def reFuel (re : RE) (s : Str) : Nat :=
  (s.length + 2) * (reSize re + 4) + 16

/-- Content of capture group n, empty when the group did not participate. -/
def capStr (s : Str) (caps : Caps) (n : Nat) : Str :=
  match caps.find? (fun t => t.1 == n) with
  | some (_, a, b) => (s.drop a).take (b - a)
  | none => []

/-- Scanning loop of re.findall: attempt a match at each position, emit the
captured groups of every match, and resume after the matched text. -/
def reFindAllAux (re : RE) (s : Str) (ng : Nat) : Nat → Nat → List (List Str)
  | 0, _ => []
  | fuel + 1, pos =>
    if pos > s.length then []
    else
      match reRun s (reFuel re s) re pos [] (fun p c => some (p, c)) with
      | some (e, caps) =>
        (List.range ng).map (fun i => capStr s caps (i + 1)) ::
          reFindAllAux re s ng fuel (if e > pos then e else pos + 1)
      | none => reFindAllAux re s ng fuel (pos + 1)

/-- re.findall(pattern, s) for a pattern with ng capture groups; each match
contributes the list of its group strings. -/
def reFindAll (re : RE) (ng : Nat) (s : Str) : List (List Str) :=
  reFindAllAux re s ng (s.length + 2) 0

/-- Literal word as a regex. -/
def reStr (w : Str) : RE :=
  w.foldr (fun c acc => RE.cat (.lit c) acc) .eps

/-- Regex X+ (greedy). -/
def rePlusGreedy (r : RE) : RE :=
  .cat r (.star true r)

/-- Regex X+? (lazy). -/
def rePlusLazy (r : RE) : RE :=
  .cat r (.star false r)

/-- Regex X? (greedy). -/
def reOptGreedy (r : RE) : RE :=
  .alt r .eps

/-- Class \s (ASCII part, matching the transcripts handled here). -/
def clsWs : RE :=
  .cls true [' ', '\t', '\n', '\r', '\x0b', '\x0c'] []

/-- Class \d. -/
def clsDigit : RE :=
  .cls true [] [('0', '9')]

/-- Lookahead (?=\s*–|\s*-|\s*\n|$) shared by the extraction patterns. -/
def reLookTail : RE :=
  .look (.alt (.cat (.star true clsWs) (.lit '–'))
        (.alt (.cat (.star true clsWs) (.lit '-'))
        (.alt (.cat (.star true clsWs) (.lit '\n')) .dollar)))

/-- Pattern - ([^:]+?)(?=\s*–|\s*-|\s*\n|$) of concierge_parser, used in
evaluate_recommendations and extract_restaurant_recommendations. -/
def reBulletCP : RE :=
  .cat (.lit '-') (.cat (.lit ' ')
    (.cat (.grp 1 (rePlusLazy (.cls false [':'] []))) reLookTail))

/-- Pattern [-•*] ([^:]+?)(?=\s*–|\s*-|\s*\n|$) of debug_analyzer. -/
def reBulletDA : RE :=
  .cat (.cls true ['-', '•', '*'] []) (.cat (.lit ' ')
    (.cat (.grp 1 (rePlusLazy (.cls false [':'] []))) reLookTail))

/-- Pattern (\d+\.\s*)([^:]+?)(?=\s*–|\s*-|\s*\n|$) of debug_analyzer. -/
def reNumbered : RE :=
  .cat (.grp 1 (.cat (rePlusGreedy clsDigit) (.cat (.lit '.') (.star true clsWs))))
    (.cat (.grp 2 (rePlusLazy (.cls false [':'] []))) reLookTail)

/-- Pattern "([^"]+)" of debug_analyzer. -/
def reQuoted : RE :=
  .cat (.lit '"') (.cat (.grp 1 (rePlusGreedy (.cls false ['"'] []))) (.lit '"'))

/-- Pattern (?:recommend|try|visit|suggest)[^\n.]*?(?:called|named)?\s+([A-Z][^.,\n]*)
of debug_analyzer. -/
def reDescriptive : RE :=
  .cat (.alt (reStr "recommend".data) (.alt (reStr "try".data)
        (.alt (reStr "visit".data) (reStr "suggest".data))))
  (.cat (.star false (.cls false ['\n', '.'] []))
  (.cat (reOptGreedy (.alt (reStr "called".data) (reStr "named".data)))
  (.cat (rePlusGreedy clsWs)
    (.grp 1 (.cat (.cls true [] [('A', 'Z')]) (.star true (.cls false ['.', ',', '\n'] [])))))))

/-- Python values produced by ast.literal_eval on the debug payloads:
strings, integers, booleans, None, lists and string-keyed or general
dictionaries.  Payload shapes outside this grammar (floats, tuples, sets)
do not occur in the transcripts modelled here; on such input the embedded
literal parser reports failure. -/
inductive PyVal where
  | str (s : Str)
  | int (n : Int)
  | bool (b : Bool)
  | noneVal
  | list (xs : List PyVal)
  | dict (kvs : List (PyVal × PyVal))

/-- Drop leading whitespace. -/
def skipWs (s : Str) : Str :=
  s.dropWhile pyIsSpace

/-- Body of a Python string literal up to the closing quote q; the payloads
modelled here contain no escape sequences. -/
def pyParseString (q : Char) : Str → Option (Str × Str)
  | [] => Option.none
  | c :: rest =>
    if c == q then some ([], rest)
    else
      match pyParseString q rest with
      | some (w, r) => some (c :: w, r)
      | Option.none => Option.none

mutual

/-- One literal value, fuelled recursive descent. -/
def pyParseVal : Nat → Str → Option (PyVal × Str)
  | 0, _ => Option.none
  | fuel + 1, s =>
    match skipWs s with
    | [] => Option.none
    | c :: rest =>
      if c == '\'' || c == '"' then
        match pyParseString c rest with
        | some (w, r) => some (.str w, r)
        | Option.none => Option.none
      else if c == '[' then
        match pyParseListItems fuel rest with
        | some (vs, r) => some (.list vs, r)
        | Option.none => Option.none
      else if c == '\x7b' then
        match pyParseDictItems fuel rest with
        | some (kvs, r) => some (.dict kvs, r)
        | Option.none => Option.none
      else if c == '-' then
        let digits := rest.takeWhile Char.isDigit
        if digits.isEmpty then Option.none
        else some (.int (-(digits.foldl (fun n d => 10 * n + digitVal d) 0 : Int)),
                   rest.dropWhile Char.isDigit)
      else if c.isDigit then
        let digits := (c :: rest).takeWhile Char.isDigit
        some (.int (digits.foldl (fun n d => 10 * n + digitVal d) 0 : Int),
              (c :: rest).dropWhile Char.isDigit)
      else if "True".data.isPrefixOf (c :: rest) then some (.bool true, (c :: rest).drop 4)
      else if "False".data.isPrefixOf (c :: rest) then some (.bool false, (c :: rest).drop 5)
      else if "None".data.isPrefixOf (c :: rest) then some (.noneVal, (c :: rest).drop 4)
      else Option.none

/-- Comma-separated list items up to the closing bracket, allowing a
trailing comma as Python does. -/
def pyParseListItems : Nat → Str → Option (List PyVal × Str)
  | 0, _ => Option.none
  | fuel + 1, s =>
    match skipWs s with
    | ']' :: r => some ([], r)
    | s1 =>
      match pyParseVal fuel s1 with
      | some (v, r) =>
        match skipWs r with
        | ',' :: r2 =>
          match pyParseListItems fuel r2 with
          | some (vs, r3) => some (v :: vs, r3)
          | Option.none => Option.none
        | ']' :: r2 => some ([v], r2)
        | _ => Option.none
      | Option.none => Option.none

/-- Comma-separated key: value items up to the closing brace. -/
def pyParseDictItems : Nat → Str → Option (List (PyVal × PyVal) × Str)
  | 0, _ => Option.none
  | fuel + 1, s =>
    match skipWs s with
    | '\x7d' :: r => some ([], r)
    | s1 =>
      match pyParseVal fuel s1 with
      | some (kv, r) =>
        match skipWs r with
        | ':' :: r2 =>
          match pyParseVal fuel r2 with
          | some (vv, r3) =>
            match skipWs r3 with
            | ',' :: r4 =>
              match pyParseDictItems fuel r4 with
              | some (kvs, r5) => some ((kv, vv) :: kvs, r5)
              | Option.none => Option.none
            | '\x7d' :: r4 => some ([(kv, vv)], r4)
            | _ => Option.none
          | Option.none => Option.none
        | _ => Option.none
      | Option.none => Option.none

end

/-- ast.literal_eval: parse one literal and require only whitespace after
it.  Returns none exactly where the source except-branches fire. -/
def pyLiteralEval (s : Str) : Option PyVal :=
  match pyParseVal (s.length + 2) s with
  | some (v, r) => if (skipWs r).isEmpty then some v else Option.none
  | Option.none => Option.none

/-- Message classification labels assigned by _determine_message_type. -/
inductive MsgType where
  | user_request
  | processing
  | debug
  | audio
  | recommendation
deriving DecidableEq, Repr

/-- Kind tag of a decoded debug payload. -/
inductive DbgType where
  | metadata
  | context
  | candidates
deriving DecidableEq, Repr

/-- Decoded debug payload attached to a debug message. -/
structure DebugInfo where
  dtype : DbgType
  data : PyVal

/-- One row of the position_analysis list built by
evaluate_recommendations; position is -1 when the expected item was not
found, and the position score mirrors the 1.0 / 0.67 / 0.33 / 0 ladder. -/
structure PosEntry where
  expected : Str
  found : Bool
  position : Int
  position_score : ℚ

/-- Result dictionary of evaluate_recommendations.  The unmatched-persona
branch of the source omits the matched_items and extra_recommendations
keys; that branch is modelled with empty lists. -/
structure RecEval where
  matched : Bool
  expected_recommendations : List Str
  actual_recommendations : List Str
  matched_items : List Str
  extra_recommendations : List Str
  accuracy : ℚ
  precision : ℚ
  «recall» : ℚ
  extra_count : Nat
  missing_count : Nat
  position_analysis : List PosEntry

/-- One parsed transcript message.  The debug_info key is only set by the
source when extraction succeeds; absence is modelled as none.  The persona
and evaluation keys are added later by analyze_personas. -/
structure Message where
  timestamp : PyDateTime
  sender : Str
  content : Str
  mtype : MsgType
  conversation_id : Nat
  debug_info : Option DebugInfo := Option.none
  persona_id : Option Str := Option.none
  persona_description : Option Str := Option.none
  recommendation_evaluation : Option RecEval := Option.none

/-- Designated agent identity of the transcripts. -/
def wagner : Str := "Wagner".data

/-- _determine_message_type, with the priority order of the source; the
audio marker carries the left-to-right mark embedded in the source
literal. -/
def determineMessageType (content sender : Str) : MsgType :=
  if sender == wagner then .user_request
  else if pyContainsSub "Please, wait".data content
       || pyContainsSub "Por favor, aguarde".data content then .processing
  else if pyStartsWith "[DEBUG]".data content then .debug
  else if pyContainsSub "‎audio omitted".data content then .audio
  else .recommendation

/-- _extract_debug_info: detect one of the three fixed markers by substring
containment, strip the marker text by global replacement, and decode the
remaining literal; any decoding failure yields none for that message. -/
def extractDebugInfo (content : Str) : Option DebugInfo :=
  if pyContainsSub "[DEBUG] Metadados relacionados".data content then
    match pyLiteralEval (pyReplace "[DEBUG] Metadados relacionados ".data [] content) with
    | some v => some ⟨.metadata, v⟩
    | Option.none => Option.none
  else if pyContainsSub "[DEBUG] Contexto entendido".data content then
    match pyLiteralEval (pyReplace "[DEBUG] Contexto entendido: ".data [] content) with
    | some v => some ⟨.context, v⟩
    | Option.none => Option.none
  else if pyContainsSub "[DEBUG] Restaurantes candidatos".data content then
    match pyLiteralEval (pyReplace "[DEBUG] Restaurantes candidatos: ".data [] content) with
    | some v => some ⟨.candidates, v⟩
    | Option.none => Option.none
  else Option.none

/-- One entry of the debug_data accumulator of the parser. -/
structure DebugRecord where
  conversation_id : Nat
  timestamp : PyDateTime
  debug_type : DbgType
  data : PyVal

/-- One (timestamp, sender, content) triple as produced by re.findall with
the WhatsApp message pattern.  The regex extraction stage is modelled by
quantifying over the list of matched triples. -/
structure Triple where
  ts : Str
  sender : Str
  content : Str

/-- The single fatal error kind of the parser: an unparseable timestamp,
surfaced by the source as the ValueError of datetime.strptime and named
FormatError by the specification. -/
inductive ParseErr where
  | formatError
deriving DecidableEq, Repr

/-- Mutable state of the parse_whatsapp_chat loop. -/
structure LoopState where
  convs : List (List Message)
  current : List Message
  debugData : List DebugRecord
  convId : Nat
  prev : Option Str
  idx : Nat

/-- State at loop entry after the reset of the accumulators. -/
def initState : LoopState :=
  ⟨[], [], [], 0, Option.none, 0⟩

/-- The message object built for one matched triple, stamped with the
conversation id current before the boundary check runs, exactly as in the
source. -/
def mkParsedMessage (st : LoopState) (t : Triple) (dt : PyDateTime) : Message :=
  let content := pyStrip t.content
  let mt := determineMessageType content t.sender
  { timestamp := dt, sender := t.sender, content := content, mtype := mt,
    conversation_id := st.convId,
    debug_info := if mt = .debug then extractDebugInfo content else Option.none }

/-- The debug_data accumulator after one triple: extended when the message
carries decoded debug info, also with the pre-boundary conversation id. -/
def newDebugData (st : LoopState) (t : Triple) (dt : PyDateTime) : List DebugRecord :=
  match (mkParsedMessage st t dt).debug_info with
  | some di => st.debugData ++ [⟨st.convId, dt, di.dtype, di.data⟩]
  | Option.none => st.debugData

/-- New-conversation boundary handling: when the designated agent speaks
after a non-agent turn, flush the accumulated conversation (after the
first message) and start a fresh one. -/
def stepBoundary (st : LoopState) (sender : Str) : LoopState :=
  if sender == wagner && (!(st.prev == some wagner) || st.idx == 0) then
    if st.idx > 0 then
      { st with convs := st.convs ++ [st.current], convId := st.convId + 1, current := [] }
    else
      { st with current := [] }
  else st

/-- One iteration of the message loop of parse_whatsapp_chat. -/
def parseStep (st : LoopState) (t : Triple) : Except ParseErr LoopState :=
  match strptimeFixed t.ts with
  | Option.none => .error .formatError
  | some dt =>
    let st1 := stepBoundary st t.sender
    .ok { convs := st1.convs,
          current := st1.current ++ [mkParsedMessage st t dt],
          debugData := newDebugData st t dt,
          convId := st1.convId,
          prev := some t.sender,
          idx := st.idx + 1 }

/-- The message loop. -/
def parseLoop : LoopState → List Triple → Except ParseErr LoopState
  | st, [] => .ok st
  | st, t :: ts =>
    match parseStep st t with
    | .error e => .error e
    | .ok st1 => parseLoop st1 ts

/-- parse_whatsapp_chat over the matched message triples: run the loop from
freshly reset state and flush the trailing conversation if it is
non-empty.  Returns the conversation list and the debug_data accumulator. -/
def parseWhatsappChat (ts : List Triple) :
    Except ParseErr (List (List Message) × List DebugRecord) :=
  match parseLoop initState ts with
  | .error e => .error e
  | .ok st =>
    .ok (if st.current.isEmpty then st.convs else st.convs ++ [st.current], st.debugData)

/-- One row of the persona reference table as consumed by
load_personas_from_csv: the identifier cell (none models a missing or
non-string cell), the PERSONA description, the Input phrase, and the
Anwar option cells that are present, in column order. -/
structure PersonaRow where
  no : Option Str
  persona : Str
  input : Str
  options : List Str

/-- One entry of the personas list. -/
structure PersonaInfo where
  id : Str
  description : Str
  input : Str
  recommendations : List Str

/-- Python dict assignment d[k] = v on an insertion-ordered association
list: an existing key keeps its position and receives the new value, a new
key is appended. -/
def dictSet {α β : Type} [BEq α] (k : α) (v : β) : List (α × β) → List (α × β)
  | [] => [(k, v)]
  | (k1, v1) :: rest => if k1 == k then (k1, v) :: rest else (k1, v1) :: dictSet k v rest

/-- Python dict lookup on an association list. -/
def dictGet? {α β : Type} [BEq α] (k : α) (d : List (α × β)) : Option β :=
  (d.find? (fun p => p.1 == k)).map (·.2)

/-- The three lookup structures a PersonaAnalyzer holds after loading. -/
structure PersonaTables where
  personas : List PersonaInfo
  persona_inputs : List (Str × Str)
  persona_recommendations : List (Str × List Str)

/-- load_personas_from_csv over the parsed rows: skip rows whose
identifier is missing or empty, append the persona record, index the
lowercased input phrase when non-empty, and store the options under the
persona id. -/
def loadPersonaRow (tabs : PersonaTables) (row : PersonaRow) : PersonaTables :=
  match row.no with
  | Option.none => tabs
  | some pid =>
    if pid.isEmpty then tabs
    else
      { personas := tabs.personas ++ [⟨pid, row.persona, row.input, row.options⟩],
        persona_inputs :=
          if row.input.isEmpty then tabs.persona_inputs
          else dictSet (pyLower row.input) pid tabs.persona_inputs,
        persona_recommendations := dictSet pid row.options tabs.persona_recommendations }

/-- load_personas_from_csv: fold the row processing over the table from
empty lookup state. -/
def loadPersonas (rows : List PersonaRow) : PersonaTables :=
  rows.foldl loadPersonaRow ⟨[], [], []⟩

/-- Content of the first user_request message of a conversation. -/
def getUserRequest (conv : List Message) : Option Str :=
  (conv.find? (fun m => m.mtype == MsgType.user_request)).map (·.content)

/-- Fuzzy word-overlap test of match_conversation_to_persona.  The source
compares len(common) against 0.7 * len(input_words) in float arithmetic;
for the word-set sizes a persona table produces the float product rounds
to the exact rational, so the test is 10 * common ≥ 7 * input. -/
def fuzzyMatchOK (input_text url : Str) : Bool :=
  let input_words := (pySplitWs (pyLower input_text)).toFinset
  let request_words := (pySplitWs url).toFinset
  let common := input_words ∩ request_words
  decide (10 * common.card ≥ 7 * input_words.card)

/-- match_conversation_to_persona: take the first user request (an empty
request returns no match), try the exact lowercased lookup, then scan the
input-phrase dictionary in insertion order for the first entry passing the
0.7 word-overlap test. -/
def matchConversationToPersona (tabs : PersonaTables) (conv : List Message) : Option Str :=
  match getUserRequest conv with
  | Option.none => Option.none
  | some user_request =>
    if user_request.isEmpty then Option.none
    else
      let url := pyStrip (pyLower user_request)
      match dictGet? url tabs.persona_inputs with
      | some pid => some pid
      | Option.none =>
        (tabs.persona_inputs.find? (fun p => fuzzyMatchOK p.1 url)).map (·.2)

/-- Stop words removed before comparing restaurant-name word sets. -/
def commonWords : List Str :=
  ["the", "restaurant", "café", "cafe", "bar", "grill", "bistro", "kitchen"].map String.data

/-- _is_same_restaurant.  The float thresholds of the source are exact
here: shared ≥ min * 0.8 becomes 5 * shared ≥ 4 * min and
longer > shorter * 1.5 becomes 2 * longer > 3 * shorter, which is what the
float comparisons evaluate to on string lengths. -/
def isSameRestaurant (name1 name2 : Str) : Bool :=
  let n1 := pyStrip (pyLower name1)
  let n2 := pyStrip (pyLower name2)
  if n1 == n2 then true
  else
    let words1 := (pySplitWs n1).toFinset
    let words2 := (pySplitWs n2).toFinset
    let filtered1 := words1 \ commonWords.toFinset
    let filtered2 := words2 \ commonWords.toFinset
    if filtered1 ≠ ∅ ∧ filtered2 ≠ ∅ then
      let shared := filtered1 ∩ filtered2
      if 5 * shared.card ≥ 4 * min filtered1.card filtered2.card then
        let shorter := if n1.length < n2.length then n1 else n2
        let longer := if n1.length < n2.length then n2 else n1
        if 2 * longer.length > 3 * shorter.length then
          if (pySplitWs longer).contains shorter ∧ (pySplitWs longer).length > 1 then
            false
          else true
        else true
      else false
    else false

/-- Restaurant names listed in the first recommendation message of a
conversation, as extracted by the bullet pattern of
evaluate_recommendations, each stripped. -/
def extractActualCP (conv : List Message) : List Str :=
  match conv.find? (fun m => m.mtype == MsgType.recommendation) with
  | some msg => (reFindAll reBulletCP 1 msg.content).map (fun g => pyStrip (g.getD 0 []))
  | Option.none => []

/-- Scoring core of evaluate_recommendations on an expected and an actual
recommendation list: first-match search per expected item, the position
score ladder, and the aggregate metrics. -/
def evalLists (expected actual : List Str) : RecEval :=
  let entries := expected.enum.map (fun p =>
    let jOpt := actual.findIdx? (fun act => isSameRestaurant p.2 act)
    let mpos : Int := match jOpt with
      | some j => (j : Int)
      | Option.none => -1
    let score : ℚ :=
      if mpos = (p.1 : Int) then 1
      else if 0 ≤ mpos ∧ mpos < (expected.length : Int) then 67 / 100
      else if 0 ≤ mpos then 33 / 100
      else 0
    ({ expected := p.2, found := jOpt.isSome, position := mpos,
       position_score := score } : PosEntry))
  let matched_items := expected.filter (fun exp => actual.any (fun act => isSameRestaurant exp act))
  let matchCnt := matched_items.length
  { matched := true,
    expected_recommendations := expected,
    actual_recommendations := actual,
    matched_items := matched_items,
    extra_recommendations :=
      actual.filter (fun r => !(expected.any (fun exp => isSameRestaurant exp r))),
    accuracy := if expected.isEmpty then 0 else (matchCnt : ℚ) / (expected.length : ℚ),
    precision := if actual.isEmpty then 0 else (matchCnt : ℚ) / (actual.length : ℚ),
    «recall» := if expected.isEmpty then 0 else (matchCnt : ℚ) / (expected.length : ℚ),
    extra_count := if actual.length > matchCnt then actual.length - matchCnt else 0,
    missing_count := expected.length - matchCnt,
    position_analysis := entries }

/-- Result of the early-return branch of evaluate_recommendations for a
missing or unknown persona id. -/
def defaultEval : RecEval :=
  ⟨false, [], [], [], [], 0, 0, 0, 0, 0, []⟩

/-- evaluate_recommendations: resolve the expected list of the persona,
extract the actual list from the conversation, and score.  A missing,
empty or unknown persona id takes the zeroed early return of the source. -/
def evaluateRecommendations (tabs : PersonaTables) (conv : List Message)
    (pid : Option Str) : RecEval :=
  match pid with
  | Option.none => defaultEval
  | some p =>
    if p.isEmpty then defaultEval
    else
      match dictGet? p tabs.persona_recommendations with
      | Option.none => defaultEval
      | some expected => evalLists expected (extractActualCP conv)

/-
  DebugAnalyzer.  Counters and defaultdicts are modelled as
  insertion-ordered association lists, matching Python dict iteration
  order.  The source also stores a message index in every extracted debug
  record, using it only to re-sort records into the message order in which
  extraction already emits them; the redundant index is omitted.  The
  networkx node and edge sets feed only generate_network_data, which no
  claim touches, and are not modelled.
-/

/-- One debug record of the analyzer. -/
structure DbgMsg where
  dtype : DbgType
  data : PyVal
  conversation_id : Nat
  timestamp : PyDateTime

/-- Debug records of one conversation, in message order. -/
def extractConvDebug (cid : Nat) (msgs : List Message) : List DbgMsg :=
  msgs.filterMap (fun m =>
    if m.mtype == MsgType.debug then
      match m.debug_info with
      | some di => some ⟨di.dtype, di.data, cid, m.timestamp⟩
      | Option.none => Option.none
    else Option.none)

/-- Worker for extract_debug_data carrying the conversation index. -/
def extractDebugDataAux : Nat → List (List Message) → List DbgMsg
  | _, [] => []
  | cid, c :: cs => extractConvDebug cid c ++ extractDebugDataAux (cid + 1) cs

/-- extract_debug_data: all debug records across the conversations, grouped
by conversation in order. -/
def extractDebugData (convs : List (List Message)) : List DbgMsg :=
  extractDebugDataAux 0 convs

/-- Failure kinds of the analyzer: valueError stands for the ValueError or
AttributeError the source raises on malformed payload shapes, notFound for
the no-debug-data error return of analyze_conversation_debug. -/
inductive AnaErr where
  | valueError
  | notFound
deriving DecidableEq, Repr

/-- Counter increment c[k] += 1 on an insertion-ordered association
list. -/
def cincr {α : Type} [BEq α] (k : α) : List (α × Nat) → List (α × Nat)
  | [] => [(k, 1)]
  | (k1, v) :: rest => if k1 == k then (k1, v + 1) :: rest else (k1, v) :: cincr k rest

/-- category_concept_map update: create the key on first touch, then
append the value if it is not yet listed. -/
def ccmAdd (k v : Str) : List (Str × List Str) → List (Str × List Str)
  | [] => [(k, [v])]
  | (k1, vs) :: rest =>
    if k1 == k then (k1, if vs.contains v then vs else vs ++ [v]) :: rest
    else (k1, vs) :: ccmAdd k v rest

/-- conversation_concepts update: unconditional append under the
conversation id. -/
def convConceptsAdd (cid : Nat) (pair : Str × Str) :
    List (Nat × List (Str × Str)) → List (Nat × List (Str × Str))
  | [] => [(cid, [pair])]
  | (k1, ps) :: rest =>
    if k1 == cid then (k1, ps ++ [pair]) :: rest
    else (k1, ps) :: convConceptsAdd cid pair rest

/-- Counter-and-map state accumulated by build_networks. -/
structure NetState where
  category_counts : List (Str × Nat)
  concept_counts : List (Str × Nat)
  restaurant_counts : List (Str × Nat)
  category_concept_map : List (Str × List Str)
  conversation_concepts : List (Nat × List (Str × Str))
deriving DecidableEq

/-- Freshly reset NetState. -/
def NetState.empty : NetState :=
  ⟨[], [], [], [], []⟩

/-- _add_concept_relation. -/
def addConceptRelation (ns : NetState) (category value : Str) (cid : Nat) : NetState :=
  let category := pyStrip category
  let value := pyStrip value
  { category_counts := cincr category ns.category_counts,
    concept_counts := cincr value ns.concept_counts,
    restaurant_counts := ns.restaurant_counts,
    category_concept_map := ccmAdd category value ns.category_concept_map,
    conversation_concepts := convConceptsAdd cid (category, value) ns.conversation_concepts }

/-- Python dict lookup by a string key on a decoded payload dictionary. -/
def dictGetPy? (k : Str) (kvs : List (PyVal × PyVal)) : Option PyVal :=
  (kvs.find? (fun p => match p.1 with | .str s => s == k | _ => false)).map (·.2)

/-- The string content of a payload value where the source would call a
str method on it; anything else raises. -/
def pyStrOf : PyVal → Except AnaErr Str
  | .str s => .ok s
  | _ => .error .valueError

/-- Tuple unpacking a, b = s.split( -> ): exactly two pieces, else the
source raises ValueError. -/
def splitArrow (s : Str) : Except AnaErr (Str × Str) :=
  match pySplitSub " -> ".data s with
  | [a, b] => .ok (a, b)
  | _ => .error .valueError

/-- One entry of a metadata payload list. -/
def procMetaItem (cid : Nat) (ns : NetState) (item : PyVal) : Except AnaErr NetState :=
  match item with
  | .str s =>
    if pyContainsSub " -> ".data s then do
      let (c, v) ← splitArrow s
      .ok (addConceptRelation ns c v cid)
    else .ok ns
  | .dict kvs =>
    match dictGetPy? "category".data kvs, dictGetPy? "value".data kvs with
    | some cV, some vV => do
      let c ← pyStrOf cV
      let v ← pyStrOf vV
      .ok (addConceptRelation ns c v cid)
    | _, _ => .ok ns
  | _ => .ok ns

/-- One key-value entry of a metadata payload dictionary. -/
def procMetaDictEntry (cid : Nat) (ns : NetState) (kv : PyVal × PyVal) :
    Except AnaErr NetState :=
  match kv.2 with
  | .list values =>
    values.foldlM (fun ns v =>
      match v with
      | .str s => do
        let c ← pyStrOf kv.1
        .ok (addConceptRelation ns c s cid)
      | .dict inner =>
        match dictGetPy? "value".data inner with
        | some vV => do
          let c ← pyStrOf kv.1
          let v1 ← pyStrOf vV
          .ok (addConceptRelation ns c v1 cid)
        | Option.none => .ok ns
      | _ => .ok ns) ns
  | _ => .ok ns

/-- One restaurant entry of a candidates payload category list; only the
counter effect is modelled (the score feeds the unmodelled network edge
weight).  Candidate names that are not strings are treated as errors; the
counters modelled here are string-keyed. -/
def procCandItem (ns : NetState) (item : PyVal) : Except AnaErr NetState :=
  match item with
  | .str s =>
    if pyContainsSub " -> ".data s then do
      let (_, restaurant) ← splitArrow s
      if restaurant.isEmpty then .ok ns
      else .ok { ns with restaurant_counts := cincr restaurant ns.restaurant_counts }
    else .ok ns
  | .dict kvs =>
    match dictGetPy? "name".data kvs with
    | some nV => do
      let restaurant ← pyStrOf nV
      if restaurant.isEmpty then .ok ns
      else .ok { ns with restaurant_counts := cincr restaurant ns.restaurant_counts }
    | Option.none => .ok ns
  | _ => .ok ns

/-- One category of a candidates payload results dictionary. -/
def procCandCategory (ns : NetState) (kv : PyVal × PyVal) : Except AnaErr NetState :=
  match kv.2 with
  | .list restaurants => restaurants.foldlM procCandItem ns
  | _ => .ok ns

/-- build_networks processing of a single debug record. -/
def procDbgMsg (ns : NetState) (d : DbgMsg) : Except AnaErr NetState :=
  match d.dtype with
  | .metadata =>
    match d.data with
    | .list items => items.foldlM (procMetaItem d.conversation_id) ns
    | .dict kvs => kvs.foldlM (procMetaDictEntry d.conversation_id) ns
    | _ => .ok ns
  | .candidates =>
    match d.data with
    | .dict kvs =>
      match dictGetPy? "results".data kvs with
      | some (.dict results) => results.foldlM procCandCategory ns
      | some _ => .error .valueError
      | Option.none => .ok ns
    | _ => .ok ns
  | .context => .ok ns

/-- build_networks over all records, from reset state. -/
def buildNetworks (recs : List DbgMsg) : Except AnaErr NetState :=
  recs.foldlM procDbgMsg NetState.empty

/-- _extract_recommended_restaurants: scan the recommendation messages of
one conversation, run the four extraction patterns on each, and clean the
first non-empty combined extraction. -/
def extractFromMsgs : List Message → List Str
  | [] => []
  | m :: rest =>
    if m.mtype == MsgType.recommendation then
      let extracted :=
        (reFindAll reBulletDA 1 m.content).map (fun g => g.getD 0 []) ++
        (reFindAll reNumbered 2 m.content).map (fun g => g.getD 1 []) ++
        (reFindAll reQuoted 1 m.content).map (fun g => g.getD 0 []) ++
        (reFindAll reDescriptive 1 m.content).map (fun g => g.getD 0 [])
      if extracted.isEmpty then extractFromMsgs rest
      else
        (extracted.filter (fun r => (pyStrip r).length > 1)).map
          (fun r => pyRStrip ['.', ',', ':', ';'] (pyStrip r))
    else extractFromMsgs rest

/-- _extract_recommended_restaurants for a conversation id, empty when the
id is out of range. -/
def extractRecommendedRestaurants (convs : List (List Message)) (cid : Nat) : List Str :=
  extractFromMsgs ((convs.drop cid).headD [])

/-- Nested counter update m[k][r] += 1. -/
def bumpCounterMap {κ : Type} [BEq κ] (k : κ) (r : Str) :
    List (κ × List (Str × Nat)) → List (κ × List (Str × Nat))
  | [] => [(k, cincr r [])]
  | (k1, c) :: rest =>
    if k1 == k then (k1, cincr r c) :: rest else (k1, c) :: bumpCounterMap k r rest

/-- The two association maps built by analyze_recommendations. -/
structure RecMaps where
  concept_restaurant_map : List ((Str × Str) × List (Str × Nat))
  category_restaurant_map : List (Str × List (Str × Nat))
deriving DecidableEq

/-- analyze_recommendations: credit every restaurant extracted from a
conversation to every (category, concept) pair observed in it. -/
def analyzeRecommendations (convs : List (List Message))
    (cc : List (Nat × List (Str × Str))) : RecMaps :=
  (List.range convs.length).foldl (fun maps cid =>
    let concept_list := (dictGet? cid cc).getD []
    if concept_list.isEmpty then maps
    else
      let recommended := extractRecommendedRestaurants convs cid
      concept_list.foldl (fun maps pair =>
        recommended.foldl (fun maps r =>
          { concept_restaurant_map := bumpCounterMap pair r maps.concept_restaurant_map,
            category_restaurant_map := bumpCounterMap pair.1 r maps.category_restaurant_map })
          maps) maps)
    ⟨[], []⟩

/-- State of a DebugAnalyzer after load_conversations, restricted to the
pieces generate_global_insights and get_cross_recommendations_insights
count over. -/
structure AnalyzerState where
  conversation_count : Nat
  debug_message_count : Nat
  category_counts : List (Str × Nat)
  concept_counts : List (Str × Nat)
  restaurant_counts : List (Str × Nat)
  category_concept_map : List (Str × List Str)
  conversation_concepts : List (Nat × List (Str × Str))
  concept_restaurant_map : List ((Str × Str) × List (Str × Nat))
  category_restaurant_map : List (Str × List (Str × Nat))
deriving DecidableEq

/-- load_conversations: extract the debug records, build the counters, and
run the recommendation association pass. -/
def loadConversations (convs : List (List Message)) : Except AnaErr AnalyzerState :=
  match buildNetworks (extractDebugData convs) with
  | .error e => .error e
  | .ok ns =>
  let maps := analyzeRecommendations convs ns.conversation_concepts
  .ok { conversation_count := convs.length,
        debug_message_count := (extractDebugData convs).length,
        category_counts := ns.category_counts,
        concept_counts := ns.concept_counts,
        restaurant_counts := ns.restaurant_counts,
        category_concept_map := ns.category_concept_map,
        conversation_concepts := ns.conversation_concepts,
        concept_restaurant_map := maps.concept_restaurant_map,
        category_restaurant_map := maps.category_restaurant_map }

/-- The basic_stats numbers reported by generate_global_insights. -/
structure BasicStats where
  conversation_count : Nat
  debug_message_count : Nat
  unique_categories : Nat
  unique_concepts : Nat
  unique_restaurants : Nat
  category_count : Nat
  concept_count : Nat
  restaurant_count : Nat
  association_count : Nat
deriving DecidableEq, Repr

/-- Projection of the analyzer state onto the basic_stats data of
generate_global_insights. -/
def basicStats (st : AnalyzerState) : BasicStats :=
  ⟨st.conversation_count, st.debug_message_count,
   st.category_counts.length, st.concept_counts.length, st.restaurant_counts.length,
   (st.category_counts.map (·.2)).sum, (st.concept_counts.map (·.2)).sum,
   (st.restaurant_counts.map (·.2)).sum,
   (st.category_restaurant_map.map (fun p => p.2.length)).sum⟩

/-- Total tally a category holds in the category_restaurant_map, the
counts underlying get_cross_recommendations_insights. -/
def categoryTotal (st : AnalyzerState) (cat : Str) : Nat :=
  (((dictGet? cat st.category_restaurant_map).getD []).map (·.2)).sum

/-- Total tally a category holds in a category-to-restaurant counter
map. -/
def crmTotal (m : List (Str × List (Str × Nat))) (cat : Str) : Nat :=
  (((dictGet? cat m).getD []).map (·.2)).sum

mutual

/-- Python repr of a payload value, as used by the str() fallback of
analyze_concept_evolution; string escaping and the quote-choice subtlety
of repr are not replayed. -/
def pyValRepr : PyVal → Str
  | .str s => Char.ofNat 39 :: (s ++ [Char.ofNat 39])
  | .int n => (toString n).data
  | .bool b => if b then "True".data else "False".data
  | .noneVal => "None".data
  | .list xs => '[' :: (pyValReprList xs ++ [']'])
  | .dict kvs => Char.ofNat 123 :: (pyValReprPairs kvs ++ [Char.ofNat 125])

def pyValReprList : List PyVal → Str
  | [] => []
  | [x] => pyValRepr x
  | x :: y :: xs => pyValRepr x ++ (", ".data ++ pyValReprList (y :: xs))

def pyValReprPairs : List (PyVal × PyVal) → Str
  | [] => []
  | [(k, v)] => pyValRepr k ++ (": ".data ++ pyValRepr v)
  | (k, v) :: kv :: kvs =>
    pyValRepr k ++ (": ".data ++ (pyValRepr v ++ (", ".data ++ pyValReprPairs (kv :: kvs))))

end

/-- Python str() of a payload value. -/
def pyValStr : PyVal → Str
  | .str s => s
  | v => pyValRepr v

/-- Python truthiness of a payload value. -/
def pyTruthy : PyVal → Bool
  | .str s => !s.isEmpty
  | .int n => n != 0
  | .bool b => b
  | .noneVal => false
  | .list xs => !xs.isEmpty
  | .dict kvs => !kvs.isEmpty

/-- Python needle in value for a string needle: substring test on strings,
membership on lists and dict keys, TypeError on non-containers. -/
def pyInTest (needle : Str) : PyVal → Except AnaErr Bool
  | .str s => .ok (pyContainsSub needle s)
  | .list xs => .ok (xs.any (fun v => match v with | .str s => s == needle | _ => false))
  | .dict kvs => .ok (kvs.any (fun kv => match kv.1 with | .str s => s == needle | _ => false))
  | _ => .error .valueError

/-- float(s) for the plain decimal forms the debug payload scores use;
exponent and special forms are not modelled.  The value is exact, standing
in for the rounded float of the source. -/
def pyFloatQ? (s : Str) : Option ℚ :=
  let (neg, t) := match s with
    | '-' :: r => (true, r)
    | '+' :: r => (false, r)
    | r => (false, r)
  let intPart := t.takeWhile Char.isDigit
  let t2 := t.dropWhile Char.isDigit
  let intVal : ℚ := intPart.foldl (fun n d => 10 * n + (digitVal d : ℚ)) 0
  match t2 with
  | [] =>
    if intPart.isEmpty then Option.none
    else some (if neg then -intVal else intVal)
  | '.' :: frac =>
    let fracDigits := frac.takeWhile Char.isDigit
    let t3 := frac.dropWhile Char.isDigit
    if t3.isEmpty ∧ ¬(intPart.isEmpty ∧ fracDigits.isEmpty) then
      let v := intVal + (fracDigits.foldl (fun n d => 10 * n + (digitVal d : ℚ)) 0) /
        ((10 : ℚ) ^ fracDigits.length)
      some (if neg then -v else v)
    else Option.none
  | _ => Option.none

/-- Stable insertion of x into a descending-sorted list: ties keep the
existing element first, matching Python sorted with reverse=True. -/
def insertDesc {α : Type} (key : α → ℚ) (x : α) : List α → List α
  | [] => [x]
  | y :: ys => if key y ≥ key x then y :: insertDesc key x ys else x :: y :: ys

/-- Python sorted(l, key, reverse=True), stable. -/
def stableSortDesc {α : Type} (key : α → ℚ) (l : List α) : List α :=
  l.foldl (fun acc x => insertDesc key x acc) []

/-- Counter.most_common(n): by count descending, ties in insertion
order. -/
def mostCommon (c : List (Str × Nat)) (n : Nat) : List (Str × Nat) :=
  (stableSortDesc (fun p => (p.2 : ℚ)) c).take n

/-- get_conversation_debug_sequence: the records of one conversation.  The
sort by message index of the source is the identity on the extraction
order modelled here. -/
def getConversationDebugSequence (recs : List DbgMsg) (cid : Nat) : List DbgMsg :=
  recs.filter (fun d => d.conversation_id == cid)

/-- One category of the candidates concept evolution: the stripped
category name and the (name, score) pairs. -/
structure CandCat where
  category : Str
  restaurants : List (Str × ℚ)

/-- The concepts_evolution record of analyze_concept_evolution; the
context entry keeps the raw results payload as the source does. -/
structure ConceptEvolution where
  metadata : List (Str × Str)
  context : PyVal
  candidates : List CandCat

/-- One metadata payload item of analyze_concept_evolution, normalised to
a (category, value) pair with the uncategorized str() fallback. -/
def metaConceptOfItem (item : PyVal) : Except AnaErr (Str × Str) :=
  match item with
  | .str s =>
    if pyContainsSub " -> ".data s then do
      let (c, v) ← splitArrow s
      .ok (pyStrip c, pyStrip v)
    else .ok ("uncategorized".data, pyStrip (pyValStr item))
  | .dict kvs =>
    match dictGetPy? "category".data kvs, dictGetPy? "value".data kvs with
    | some cV, some vV => do
      let c ← pyStrOf cV
      let v ← pyStrOf vV
      .ok (pyStrip c, pyStrip v)
    | _, _ => .ok ("uncategorized".data, pyStrip (pyValStr item))
  | _ => .ok ("uncategorized".data, pyStrip (pyValStr item))

/-- Metadata branch of analyze_concept_evolution. -/
def metaEvolution (data : PyVal) : Except AnaErr (List (Str × Str)) :=
  match data with
  | .list items => items.mapM metaConceptOfItem
  | .dict kvs =>
    kvs.foldlM (fun acc kv =>
      match kv.2 with
      | .list values =>
        values.foldlM (fun acc v =>
          match v with
          | .str s => do
            let c ← pyStrOf kv.1
            .ok (acc ++ [(pyStrip c, pyStrip s)])
          | .dict inner =>
            match dictGetPy? "value".data inner with
            | some vV => do
              let c ← pyStrOf kv.1
              let v1 ← pyStrOf vV
              .ok (acc ++ [(pyStrip c, pyStrip v1)])
            | Option.none => .ok acc
          | _ => .ok acc) acc
      | _ => .ok acc) []
  | _ => .ok []

/-- Score of a candidates dict entry: missing means 0.0; the source keeps
whatever value is present and would only fail later when averaging, which
is modelled as an immediate error for non-numeric scores. -/
def candScoreOf (kvs : List (PyVal × PyVal)) : Except AnaErr ℚ :=
  match dictGetPy? "score".data kvs with
  | Option.none => .ok 0
  | some (.int n) => .ok (n : ℚ)
  | some _ => .error .valueError

/-- One restaurant entry of the candidates concept evolution. -/
def candEvolutionItem (acc : List (Str × ℚ)) (item : PyVal) :
    Except AnaErr (List (Str × ℚ)) :=
  match item with
  | .str s =>
    if pyContainsSub " -> ".data s then do
      let (scoreStr, name) ← splitArrow s
      let score := (pyFloatQ? (pyStrip scoreStr)).getD 0
      if name.isEmpty then .ok acc else .ok (acc ++ [(pyStrip name, score)])
    else .ok acc
  | .dict kvs =>
    match dictGetPy? "name".data kvs with
    | some nV => do
      let name ← pyStrOf nV
      let score ← candScoreOf kvs
      if name.isEmpty then .ok acc else .ok (acc ++ [(pyStrip name, score)])
    | Option.none => .ok acc
  | _ => .ok acc

/-- Candidates branch of analyze_concept_evolution. -/
def candEvolution (data : PyVal) : Except AnaErr (List CandCat) :=
  match data with
  | .dict kvs =>
    match dictGetPy? "results".data kvs with
    | some (.dict results) =>
      results.foldlM (fun acc kv => do
        let cat ← pyStrOf kv.1
        let rests ←
          match kv.2 with
          | .list items => items.foldlM candEvolutionItem []
          | _ => .ok []
        .ok (acc ++ [CandCat.mk (pyStrip cat) rests])) []
    | some _ => .error .valueError
    | Option.none => .ok []
  | _ => .ok []

/-- analyze_concept_evolution: walk the debug sequence of one
conversation, the last record of each kind winning. -/
def analyzeConceptEvolution (recs : List DbgMsg) (cid : Nat) :
    Except AnaErr ConceptEvolution :=
  (getConversationDebugSequence recs cid).foldlM (fun ev d =>
    match d.dtype with
    | .metadata => do
      let m ← metaEvolution d.data
      .ok { ev with metadata := m }
    | .context =>
      match d.data with
      | .dict kvs =>
        match dictGetPy? "results".data kvs with
        | some ctx => .ok { ev with context := ctx }
        | Option.none => .ok ev
      | _ => .ok ev
    | .candidates => do
      let c ← candEvolution d.data
      .ok { ev with candidates := c })
    ⟨[], .dict [], []⟩

/-- Typed payloads of the insight entries analyze_conversation_debug
appends; the fixed title and description strings are not re-modelled. -/
inductive Insight where
  | metadata_summary (count : Nat) (categories : List (Str × Nat))
      (top_categories : List (Str × Nat))
  | context_summary (categories : List PyVal) (values_count : Nat)
  | candidates_summary (total_candidates : Nat) (category_count : Nat)
      (categories : List Str) (candidate_distribution : List (Str × Nat))
      (avg_scores : List (Str × ℚ))
  | top_candidates (top : List (Str × Str × ℚ))

/-- Result of analyze_conversation_debug on the success path. -/
structure ConvAnalysis where
  conversation_id : Nat
  request : Option Str
  debug_count : Nat
  concept_evolution : ConceptEvolution
  insights : List Insight

/-- analyze_conversation_debug: the no-debug-data error return is the
NotFoundError of the specification; otherwise assemble the evolution and
the insight list. -/
def analyzeConversationDebug (convs : List (List Message)) (cid : Nat) :
    Except AnaErr ConvAnalysis :=
  let recs := extractDebugData convs
  let seq := getConversationDebugSequence recs cid
  if seq.isEmpty then .error .notFound
  else do
    let request :=
      if cid < convs.length then getUserRequest ((convs.drop cid).headD []) else Option.none
    let ev ← analyzeConceptEvolution recs cid
    let ins1 : List Insight :=
      if ev.metadata.isEmpty then []
      else
        let cc := ev.metadata.foldl (fun c e => cincr e.1 c) []
        [.metadata_summary ev.metadata.length cc (mostCommon cc 5)]
    let ins2 : List Insight ←
      if pyTruthy ev.context then
        match ev.context with
        | .dict kvs =>
          let vc := (kvs.map (fun kv =>
            match kv.2 with
            | .list xs => xs.length
            | _ => 0)).sum
          .ok [Insight.context_summary (kvs.map (·.1)) vc]
        | _ => .error .valueError
      else .ok []
    let ins34 : List Insight :=
      if ev.candidates.isEmpty then []
      else
        let total := (ev.candidates.map (fun c => c.restaurants.length)).sum
        let avgs := (ev.candidates.filter (fun c => !c.restaurants.isEmpty)).map
          (fun c => (c.category,
            ((c.restaurants.map (·.2)).sum) / (c.restaurants.length : ℚ)))
        let avgsSorted := stableSortDesc (fun p => p.2) avgs
        let allC := (ev.candidates.map (fun c =>
          c.restaurants.map (fun r => (c.category, r.1, r.2)))).flatten
        let allSorted := stableSortDesc (fun t => t.2.2) allC
        [.candidates_summary total ev.candidates.length (ev.candidates.map (·.category))
           (ev.candidates.map (fun c => (c.category, c.restaurants.length))) avgsSorted,
         .top_candidates (allSorted.take 5)]
    .ok ⟨cid, request, seq.length, ev, ins1 ++ ins2 ++ ins34⟩

/-
  extract_restaurant_recommendations of the parser.
-/

/-- Parser instance state consumed by extract_restaurant_recommendations:
the parsed conversations, the Excel sheet restaurant names, and whether a
persona analyzer is loaded. -/
structure ParserState where
  conversations : List (List Message)
  sheet_restaurants : List Str
  personaLoaded : Bool

/-- match_restaurant_to_sheet: exact case-insensitive match first, then
the same-restaurant heuristic when a persona analyzer is present. -/
def matchRestaurantToSheet (st : ParserState) (name : Str) : Option Str :=
  if st.sheet_restaurants.isEmpty || name.isEmpty then Option.none
  else
    match st.sheet_restaurants.find? (fun sn => pyStrip (pyLower name) == pyStrip (pyLower sn)) with
    | some sn => some sn
    | Option.none =>
      if st.personaLoaded then st.sheet_restaurants.find? (fun sn => isSameRestaurant name sn)
      else Option.none

/-- One matched-restaurant entry: the raw extraction, its sheet match, and
the display name preferring the sheet name. -/
structure MatchedRestaurant where
  extracted : Str
  sheet_match : Option Str
  name : Str

/-- One candidate-restaurant entry from the debug data; the category is
the raw results key. -/
structure CandidateRestaurant where
  category : PyVal
  extracted : Str
  sheet_match : Option Str
  name : Str

/-- One record of extract_restaurant_recommendations.  Optional fields
model dictionary keys the source adds conditionally. -/
structure RecItem where
  conversation_id : Nat
  request : Str
  potential_restaurants : List Str
  matched_restaurants : List MatchedRestaurant
  candidate_restaurants : List CandidateRestaurant
  sheet_restaurants : List Str
  full_recommendation : Str
  persona_id : Option Str
  persona_description : Option Str
  expected_restaurants : Option (List Str)
  matched_expected : Option (List MatchedRestaurant)
  accuracy : Option ℚ

/-- Candidate extraction of extract_restaurant_recommendations: scan the
debug messages of the conversation for candidates payloads and collect the
name part of every arrow entry. -/
def candidateRestaurantsOf (st : ParserState) (conv : List Message) :
    Except AnaErr (List CandidateRestaurant) :=
  conv.foldlM (fun acc m =>
    if m.mtype == MsgType.debug then
      match m.debug_info with
      | some di =>
        if di.dtype == DbgType.candidates then do
          let hasResults ← pyInTest "results".data di.data
          if hasResults then
            match di.data with
            | .dict kvs =>
              match dictGetPy? "results".data kvs with
              | some (.dict results) =>
                results.foldlM (fun acc kv =>
                  match kv.2 with
                  | .list values =>
                    values.foldlM (fun acc v => do
                      let t ← pyInTest " -> ".data v
                      if t then
                        match v with
                        | .str s =>
                          let parts := pySplitSub " -> ".data s
                          if parts.length > 1 then
                            let cname := parts.getD 1 []
                            let sm := matchRestaurantToSheet st cname
                            .ok (acc ++ [CandidateRestaurant.mk kv.1 cname sm (sm.getD cname)])
                          else .ok acc
                        | _ => .error .valueError
                      else .ok acc) acc
                  | _ => .ok acc) acc
              | some _ => .error .valueError
              | Option.none => .ok acc
            | _ => .ok acc
          else .ok acc
        else .ok acc
      | Option.none => .ok acc
    else .ok acc) []

/-- One output record for a conversation holding a recommendation
message. -/
def buildRecItem (st : ParserState) (i : Nat) (conv : List Message) (rmsg : Message) :
    Except AnaErr RecItem := do
  let user_request := (getUserRequest conv).getD "No request".data
  let content := rmsg.content
  let potential := (reFindAll reBulletCP 1 content).map (fun g => g.getD 0 [])
  let matched := potential.map (fun r =>
    let sm := matchRestaurantToSheet st r
    MatchedRestaurant.mk r sm (sm.getD r))
  let cands ← candidateRestaurantsOf st conv
  let pid := (conv.find? (fun m => m.persona_id.isSome)).bind (·.persona_id)
  let pdesc := (conv.find? (fun m => m.persona_description.isSome)).bind (·.persona_description)
  let evaluation := rmsg.recommendation_evaluation
  let expected := (evaluation.map (·.expected_recommendations)).getD []
  let matchedExpected :=
    if !expected.isEmpty ∧ !st.sheet_restaurants.isEmpty then
      expected.map (fun r =>
        let sm := matchRestaurantToSheet st r
        MatchedRestaurant.mk r sm (sm.getD r))
    else []
  let pidTruthy := match pid with
    | some p => !p.isEmpty
    | Option.none => false
  .ok { conversation_id := i,
        request := user_request,
        potential_restaurants := potential,
        matched_restaurants := matched,
        candidate_restaurants := cands,
        sheet_restaurants := st.sheet_restaurants,
        full_recommendation := content,
        persona_id := if pidTruthy then pid else Option.none,
        persona_description := if pidTruthy then pdesc else Option.none,
        expected_restaurants := evaluation.map (·.expected_recommendations),
        matched_expected := evaluation.map (fun _ => matchedExpected),
        accuracy := evaluation.map (·.accuracy) }

/-- Worker for extract_restaurant_recommendations carrying the
conversation index. -/
def extractRecsAux (st : ParserState) : Nat → List (List Message) → Except AnaErr (List RecItem)
  | _, [] => .ok []
  | i, conv :: rest =>
    match conv.find? (fun m => m.mtype == MsgType.recommendation) with
    | some rmsg =>
      match buildRecItem st i conv rmsg with
      | .error e => .error e
      | .ok item =>
        match extractRecsAux st (i + 1) rest with
        | .error e => .error e
        | .ok others => .ok (item :: others)
    | Option.none => extractRecsAux st (i + 1) rest

/-- extract_restaurant_recommendations: one record per conversation with a
recommendation message, in conversation order. -/
def extractRestaurantRecommendations (st : ParserState) : Except AnaErr (List RecItem) :=
  extractRecsAux st 0 st.conversations

/-
  Specification-side definitions.  Each follows the wording of a claim or
  of its amended form, for comparison with the source-derived definitions
  above, and is named accordingly.
-/

/-- Conversation id the source stamps on the j-th message of the k-th
conversation: the id is assigned before the boundary check runs, so the
opening message of every conversation after the first carries the id of
the previous conversation. -/
def convIdSpec (k j : Nat) : Nat :=
  if k ≠ 0 ∧ j = 0 then k - 1 else k

/-- Number of expected recommendations that find an equivalent actual
recommendation, the matches quantity of the claimed metric formulas. -/
def matchedCount (expected actual : List Str) : Nat :=
  (expected.filter (fun exp => actual.any (fun act => isSameRestaurant exp act))).length

/-- Claim C4 as stated: exact case-insensitive match against the persona
input phrases returns that persona's id, otherwise the first persona in
table order whose input word set is covered at the 0.70 threshold.
Written from the claim text, to be compared with the source behaviour. -/
def specC4Match (personas : List PersonaInfo) (conv : List Message) : Option Str :=
  match getUserRequest conv with
  | Option.none => Option.none
  | some req =>
    let url := pyStrip (pyLower req)
    match personas.find? (fun p => pyLower p.input == url) with
    | some p => some p.id
    | Option.none => (personas.find? (fun p => fuzzyMatchOK p.input url)).map (·.id)

/-- The (lowercased input, persona id) pairs of the valid rows, in row
order. -/
def personaInputEntries (rows : List PersonaRow) : List (Str × Str) :=
  rows.filterMap (fun r =>
    match r.no with
    | some pid =>
      if pid.isEmpty || r.input.isEmpty then Option.none else some (pyLower r.input, pid)
    | Option.none => Option.none)

/-- Keys of an association list in order of first occurrence. -/
def keysFirstOrder : List (Str × Str) → List Str
  | [] => []
  | (k, _) :: rest => k :: (keysFirstOrder rest).filter (fun x => x != k)

/-- Value of the last entry carrying a key. -/
def lastValueFor (k : Str) (l : List (Str × Str)) : Str :=
  (((l.filter (fun p => p.1 == k)).getLast?).map (·.2)).getD []

/-- The input-phrase table described by the amended claim C4: one entry
per distinct case-folded input phrase, placed at the phrase's first
occurrence in row order and carrying the persona id of its last
occurrence. -/
def specDedupInputs (rows : List PersonaRow) : List (Str × Str) :=
  (keysFirstOrder (personaInputEntries rows)).map
    (fun k => (k, lastValueFor k (personaInputEntries rows)))

/-- Matching procedure described by the amended claim C4, over the
deduplicated table. -/
def specC4AmendedMatch (rows : List PersonaRow) (req : Str) : Option Str :=
  let table := specDedupInputs rows
  let url := pyStrip (pyLower req)
  match dictGet? url table with
  | some pid => some pid
  | Option.none => (table.find? (fun p => fuzzyMatchOK p.1 url)).map (·.2)

/-- Claim C8 as stated: for a category, the sum over all conversations
mentioning that category of the number of distinct restaurants recommended
in that conversation.  Written from the claim text. -/
def specC8CategoryCount (convs : List (List Message)) (st : AnalyzerState) (cat : Str) : Nat :=
  ((List.range convs.length).map (fun cid =>
    let pairs := (dictGet? cid st.conversation_concepts).getD []
    if pairs.any (fun p => p.1 == cat) then
      (extractRecommendedRestaurants convs cid).dedup.length
    else 0)).sum

/-
  Concrete transcripts, tables and states used by the witnesses and
  counterexamples.
-/

/-- Timestamp used by the concrete examples. -/
def ts0 : PyDateTime :=
  ⟨2024, 3, 1, 10, 0, 0⟩

/-- A well-formed timestamp string. -/
def tsA : Str :=
  "2024-03-01, 10:00:00 AM".data

/-- Message constructor for hand-built conversations. -/
def mkMsg (sender content : Str) (mt : MsgType) : Message :=
  { timestamp := ts0, sender := sender, content := content, mtype := mt, conversation_id := 0 }

/-- Three-message transcript with two conversations. -/
def demoTriples : List Triple :=
  [⟨tsA, "Wagner".data, "Find me sushi".data⟩,
   ⟨tsA, "Concierge".data, "Please, wait".data⟩,
   ⟨tsA, "Concierge".data, "- Sushi Ko – great".data⟩]

/-- Conversations parsed from demoTriples. -/
def c1DemoConvs : List (List Message) :=
  match parseWhatsappChat demoTriples with
  | .ok p => p.1
  | .error _ => []

/-- Debug records parsed from demoTriples. -/
def c1DemoDbg : List DebugRecord :=
  match parseWhatsappChat demoTriples with
  | .ok p => p.2
  | .error _ => []

/-- Transcript whose second conversation starts at the third message. -/
def c3Triples : List Triple :=
  [⟨tsA, "Wagner".data, "first request".data⟩,
   ⟨tsA, "Concierge".data, "- Nice Spot – fine".data⟩,
   ⟨tsA, "Wagner".data, "second request".data⟩]

/-- Conversations parsed from c3Triples. -/
def c3Convs : List (List Message) :=
  match parseWhatsappChat c3Triples with
  | .ok p => p.1
  | .error _ => []

/-- Debug records parsed from c3Triples. -/
def c3Dbg : List DebugRecord :=
  match parseWhatsappChat c3Triples with
  | .ok p => p.2
  | .error _ => []

/-- Second conversation parsed from c3Triples. -/
def c3SecondConv : List Message :=
  (c3Convs.drop 1).headD []

/-- Opening message of the second conversation of c3Triples. -/
def c3BoundaryMsg : Message :=
  c3SecondConv.headD (mkMsg [] [] .processing)

/-- Loop invariant tying the conversation_id stamped on each message to
the final position of its conversation: every message carries the id of
its conversation except the opening message of each conversation after
the first, which carries the id of the previous one. -/
def convIdInv (st : LoopState) : Prop :=
  st.convId = st.convs.length ∧
  (∀ k cv j m, st.convs[k]? = some cv → cv[j]? = some m → m.conversation_id = convIdSpec k j) ∧
  (∀ j m, st.current[j]? = some m → m.conversation_id = convIdSpec st.convs.length j) ∧
  (st.idx = 0 → st.convs = [] ∧ st.current = []) ∧
  (st.idx ≠ 0 → st.current ≠ [])

/-- Two personas sharing one input phrase. -/
def c4Rows : List PersonaRow :=
  [⟨some "1".data, "first persona".data, "alpha beta".data, []⟩,
   ⟨some "2".data, "second persona".data, "alpha beta".data, []⟩]

/-- Conversation whose request covers the shared phrase without matching
it exactly. -/
def c4Conv : List Message :=
  [mkMsg "Wagner".data "alpha beta gamma".data .user_request]

/-- The reference persona of the evaluation scenario. -/
def c5Rows : List PersonaRow :=
  [⟨some "P1".data, "Romantic diner".data, "find me a romantic italian place".data,
    ["Osteria Francescana".data, "Il Ristorante".data]⟩]

/-- Loaded persona tables of the evaluation scenario. -/
def c5Tabs : PersonaTables :=
  loadPersonas c5Rows

/-- Conversation of the evaluation scenario: the request differs from the
reference input only in case, and the recommendation message lists one
expected and one unexpected restaurant. -/
def c5Conv : List Message :=
  [mkMsg "Wagner".data "Find me a romantic Italian place".data .user_request,
   mkMsg "Concierge".data
     "- Osteria Francescana – Elegant fine dining\n- Trattoria Bella – Cozy spot".data
     .recommendation]

/-- A debug payload whose literal does not parse. -/
def c6Bad : Str :=
  "[DEBUG] Metadados relacionados [broken".data

/-- A well-formed metadata debug payload. -/
def c6Good : Str :=
  "[DEBUG] Metadados relacionados [\"Cuisine -> Italian\"]".data

/-- Transcript containing one malformed and one well-formed debug
message. -/
def c6Triples : List Triple :=
  [⟨tsA, "Wagner".data, "find italian".data⟩,
   ⟨tsA, "Concierge".data, c6Bad⟩,
   ⟨tsA, "Concierge".data, c6Good⟩]

/-- Conversations parsed from c6Triples. -/
def c6Convs : List (List Message) :=
  match parseWhatsappChat c6Triples with
  | .ok p => p.1
  | .error _ => []

/-- First conversation parsed from c6Triples. -/
def c6Conv0 : List Message :=
  c6Convs.headD []

/-- The malformed-payload debug message inside c6Conv0. -/
def c6BadMsg : Message :=
  (c6Conv0.drop 1).headD (mkMsg [] [] MsgType.processing)

/-- Metadata payload naming the category Cuisine twice. -/
def c8Md : Str :=
  "[DEBUG] Metadados relacionados [\"Cuisine -> Italian\", \"Cuisine -> French\"]".data

/-- One conversation mentioning Cuisine twice and recommending one
restaurant. -/
def c8Convs : List (List Message) :=
  [[mkMsg "Wagner".data "find italian or french".data .user_request,
    { timestamp := ts0, sender := "Concierge".data, content := c8Md, mtype := .debug,
      conversation_id := 0, debug_info := extractDebugInfo c8Md },
    mkMsg "Concierge".data "- Alfa Beta – nice".data .recommendation]]

/-- Analyzer state loaded from c8Convs. -/
def c8State : AnalyzerState :=
  match loadConversations c8Convs with
  | .ok st => st
  | .error _ => ⟨0, 0, [], [], [], [], [], [], []⟩

/-- One conversation with no debug messages at all. -/
def c9Convs : List (List Message) :=
  [[mkMsg "Wagner".data "hello".data .user_request]]

/-- Two conversations, only the second holding a recommendation
message. -/
def c10Convs : List (List Message) :=
  [[mkMsg "Wagner".data "nothing here".data .user_request],
   [mkMsg "Wagner".data "want pizza".data .user_request,
    mkMsg "Concierge".data "- Pizza Pazza – good".data .recommendation]]

/-- Parser state around c10Convs. -/
def c10State : ParserState :=
  ⟨c10Convs, [], false⟩

/-- Records extracted from c10State. -/
def c10Recs : List RecItem :=
  match extractRestaurantRecommendations c10State with
  | .ok r => r
  | .error _ => []

/-
  Lemmas about the parse loop.
-/

theorem stepBoundary_cases (st : LoopState) (sender : Str) :
    stepBoundary st sender = st ∨
    (st.idx = 0 ∧ stepBoundary st sender = { st with current := [] }) ∨
    (0 < st.idx ∧ stepBoundary st sender =
      { st with convs := st.convs ++ [st.current], convId := st.convId + 1, current := [] }) := by
  unfold stepBoundary
  by_cases hc : (sender == wagner && (!(st.prev == some wagner) || st.idx == 0)) = true
  · rw [if_pos hc]
    by_cases hi : st.idx > 0
    · exact Or.inr (Or.inr ⟨hi, by rw [if_pos hi]⟩)
    · exact Or.inr (Or.inl ⟨by omega, by rw [if_neg hi]⟩)
  · exact Or.inl (by rw [if_neg hc])

theorem parseStep_ok {st : LoopState} {t : Triple} {dt : PyDateTime}
    (h : strptimeFixed t.ts = some dt) :
    parseStep st t = .ok
      { convs := (stepBoundary st t.sender).convs,
        current := (stepBoundary st t.sender).current ++ [mkParsedMessage st t dt],
        debugData := newDebugData st t dt,
        convId := (stepBoundary st t.sender).convId,
        prev := some t.sender,
        idx := st.idx + 1 } := by
  unfold parseStep
  rw [h]

theorem parseStep_error {st : LoopState} {t : Triple}
    (h : strptimeFixed t.ts = Option.none) :
    parseStep st t = .error .formatError := by
  unfold parseStep
  rw [h]

theorem parseStep_ok_idx {st st1 : LoopState} {t : Triple}
    (h : parseStep st t = .ok st1) : st1.idx = st.idx + 1 := by
  cases hts : strptimeFixed t.ts with
  | none => rw [parseStep_error hts] at h; cases h
  | some dt => rw [parseStep_ok hts] at h; cases h; rfl

theorem parseStep_ok_sum {st st1 : LoopState} {t : Triple}
    (h : parseStep st t = .ok st1) (hcur : st.idx = 0 → st.current = []) :
    (st1.convs.map (fun c => c.length)).sum + st1.current.length
      = (st.convs.map (fun c => c.length)).sum + st.current.length + 1 := by
  cases hts : strptimeFixed t.ts with
  | none => rw [parseStep_error hts] at h; cases h
  | some dt =>
    rw [parseStep_ok hts] at h
    cases h
    rcases stepBoundary_cases st t.sender with hb | ⟨hz, hb⟩ | ⟨_, hb⟩
    · simp [hb]
      omega
    · simp [hb, hcur hz]
    · simp [hb, List.sum_append]

theorem parseLoop_ok_sum {ts : List Triple} :
    ∀ st st', parseLoop st ts = .ok st' → (st.idx = 0 → st.current = []) →
      (st'.convs.map (fun c => c.length)).sum + st'.current.length
        = (st.convs.map (fun c => c.length)).sum + st.current.length + ts.length := by
  induction ts with
  | nil =>
    intro st st' h _
    cases h
    simp
  | cons t rest ih =>
    intro st st' h hcur
    rw [parseLoop] at h
    cases hstep : parseStep st t with
    | error e => rw [hstep] at h; cases h
    | ok st1 =>
      rw [hstep] at h
      have h1 := parseStep_ok_sum hstep hcur
      have h2 := ih st1 st' h (fun hz => by
        have := parseStep_ok_idx hstep
        omega)
      simp only [List.length_cons]
      omega

theorem parseLoop_ok_of_all {ts : List Triple}
    (h : ∀ t ∈ ts, (strptimeFixed t.ts).isSome) :
    ∀ st, ∃ st', parseLoop st ts = .ok st' := by
  induction ts with
  | nil => exact fun st => ⟨st, rfl⟩
  | cons t rest ih =>
    intro st
    obtain ⟨dt, hdt⟩ := Option.isSome_iff_exists.mp (h t (by simp))
    obtain ⟨st', h'⟩ := ih (fun x hx => h x (by simp [hx])) _
    refine ⟨st', ?_⟩
    rw [parseLoop, parseStep_ok hdt]
    exact h'

theorem parseLoop_error_iff {ts : List Triple} :
    ∀ st, (∃ e, parseLoop st ts = .error e) ↔ ∃ t ∈ ts, strptimeFixed t.ts = Option.none := by
  induction ts with
  | nil => intro st; simp [parseLoop]
  | cons t rest ih =>
    intro st
    cases hts : strptimeFixed t.ts with
    | none =>
      constructor
      · intro _
        exact ⟨t, by simp, hts⟩
      · intro _
        exact ⟨.formatError, by rw [parseLoop, parseStep_error hts]⟩
    | some dt =>
      rw [parseLoop, parseStep_ok hts]
      constructor
      · intro he
        obtain ⟨t1, ht1, hbad⟩ := (ih _).mp he
        exact ⟨t1, by simp [ht1], hbad⟩
      · rintro ⟨t1, ht1, hbad⟩
        rcases List.mem_cons.mp ht1 with rfl | hmem
        · rw [hts] at hbad; cases hbad
        · exact (ih _).mpr ⟨t1, hmem, hbad⟩

/-- Claim C1: for every transcript on which parsing succeeds, the lengths
of the returned conversations sum to the number of matched and classified
messages: segmentation neither drops nor duplicates a message. -/
theorem claim_C1 (ts : List Triple) (convs : List (List Message)) (dbg : List DebugRecord)
    (h : parseWhatsappChat ts = .ok (convs, dbg)) :
    (convs.map (fun c => c.length)).sum = ts.length := by
  unfold parseWhatsappChat at h
  cases hloop : parseLoop initState ts with
  | error e => rw [hloop] at h; cases h
  | ok st =>
    rw [hloop] at h
    have hsum := parseLoop_ok_sum initState st hloop (fun _ => rfl)
    simp only [initState, List.map_nil, List.sum_nil, List.length_nil] at hsum
    cases h
    by_cases hc : st.current.isEmpty
    · rw [if_pos hc]
      have : st.current.length = 0 := by
        simpa [List.isEmpty_iff] using hc
      omega
    · rw [if_neg hc]
      simp [List.sum_append]
      omega

theorem claim_C1_witness :
    parseWhatsappChat demoTriples = .ok (c1DemoConvs, c1DemoDbg) ∧
    (c1DemoConvs.map (fun c => c.length)).sum = demoTriples.length := by
  have h : parseWhatsappChat demoTriples = .ok (c1DemoConvs, c1DemoDbg) := rfl
  exact ⟨h, claim_C1 demoTriples c1DemoConvs c1DemoDbg h⟩

/-- Claim C2: parse_whatsapp_chat fails with a FormatError exactly when
some matched triple's timestamp does not parse under the fixed format;
when every matched timestamp parses it returns normally, malformed debug
payloads never failing the parse. -/
theorem claim_C2 (ts : List Triple) :
    (∃ e, parseWhatsappChat ts = .error e) ↔
      ∃ t ∈ ts, strptimeFixed t.ts = Option.none := by
  unfold parseWhatsappChat
  cases hloop : parseLoop initState ts with
  | error e =>
    constructor
    · intro _
      exact (parseLoop_error_iff initState).mp ⟨e, hloop⟩
    · intro _
      exact ⟨e, rfl⟩
  | ok st =>
    constructor
    · rintro ⟨e, he⟩
      cases he
    · intro hbad
      obtain ⟨e, he⟩ := (parseLoop_error_iff initState).mpr hbad
      rw [hloop] at he
      cases he

theorem convIdSpec_of_length {n j len : Nat} (hj : j = len)
    (hlen : len = 0 → n = 0) : convIdSpec n j = n := by
  unfold convIdSpec
  split
  · rename_i hcase
    have := hlen (by omega)
    omega
  · rfl

theorem parseStep_convIdInv {st st1 : LoopState} {t : Triple}
    (h : parseStep st t = .ok st1) (hinv : convIdInv st) : convIdInv st1 := by
  obtain ⟨h1, h2, h3, h4, h5⟩ := hinv
  cases hts : strptimeFixed t.ts with
  | none => rw [parseStep_error hts] at h; cases h
  | some dt =>
    rw [parseStep_ok hts] at h
    cases h
    have hmsgid : (mkParsedMessage st t dt).conversation_id = st.convId := rfl
    rcases stepBoundary_cases st t.sender with hb | ⟨hz, hb⟩ | ⟨hpos, hb⟩
    · refine ⟨by simp [hb, h1], ?_, ?_, by simp, by simp [hb]⟩
      · intro k cv j m hk hj
        exact h2 k cv j m (by simpa [hb] using hk) hj
      · intro j m hj
        rw [hb] at hj ⊢
        by_cases hlt : j < st.current.length
        · rw [List.getElem?_append, if_pos hlt] at hj
          exact h3 j m hj
        · rw [List.getElem?_append, if_neg hlt] at hj
          rcases hd : j - st.current.length with _ | k
          · rw [hd] at hj
            simp at hj
            subst hj
            rw [hmsgid, h1]
            unfold convIdSpec
            split
            · rename_i hcase
              exfalso
              have hcur0 : st.current = [] := List.length_eq_zero.mp (by omega)
              by_cases hidx : st.idx = 0
              · exact hcase.1 (by simp [(h4 hidx).1])
              · exact h5 hidx hcur0
            · rfl
          · rw [hd] at hj
            simp at hj
    · obtain ⟨hcv, hcu⟩ := h4 hz
      refine ⟨by simp [hb, h1], ?_, ?_, by simp, by simp [hb]⟩
      · intro k cv j m hk hj
        exact h2 k cv j m (by simpa [hb] using hk) hj
      · intro j m hj
        rw [hb] at hj ⊢
        simp only [hcu, List.nil_append] at hj
        rcases j with _ | j
        · simp at hj
          subst hj
          rw [hmsgid, h1, hcv]
          rfl
        · simp at hj
    · refine ⟨by simp [hb, h1], ?_, ?_, by simp, by simp [hb]⟩
      · intro k cv j m hk hj
        rw [hb] at hk
        simp only at hk
        by_cases hlt : k < st.convs.length
        · rw [List.getElem?_append, if_pos hlt] at hk
          exact h2 k cv j m hk hj
        · rw [List.getElem?_append, if_neg hlt] at hk
          rcases hd : k - st.convs.length with _ | k1
          · rw [hd] at hk
            simp at hk
            subst hk
            have hk0 : k = st.convs.length := by omega
            rw [hk0]
            exact h3 j m hj
          · rw [hd] at hk
            simp at hk
      · intro j m hj
        rw [hb] at hj ⊢
        simp only [List.nil_append] at hj
        rcases j with _ | j
        · simp at hj
          subst hj
          rw [hmsgid, h1]
          simp only [List.length_append, List.length_cons, List.length_nil]
          unfold convIdSpec
          rw [if_pos (by omega)]
          omega
        · simp at hj

theorem parseLoop_convIdInv {ts : List Triple} :
    ∀ st st', parseLoop st ts = .ok st' → convIdInv st → convIdInv st' := by
  induction ts with
  | nil =>
    intro st st' h hinv
    cases h
    exact hinv
  | cons t rest ih =>
    intro st st' h hinv
    rw [parseLoop] at h
    cases hstep : parseStep st t with
    | error e => rw [hstep] at h; cases h
    | ok st1 =>
      rw [hstep] at h
      exact ih st1 st' h (parseStep_convIdInv hstep hinv)

theorem convIdInv_init : convIdInv initState := by
  refine ⟨rfl, ?_, ?_, fun _ => ⟨rfl, rfl⟩, fun hc => absurd rfl hc⟩
  · intro k cv j m hk
    simp [initState] at hk
  · intro j m hj
    simp [initState] at hj

/-- Claim C3, corrected: every message of the k-th returned conversation
carries conversation_id k, except the opening message of each conversation
with k positive, which carries k - 1 because the source stamps the id
before running the new-conversation boundary check. -/
theorem claim_C3_amended (ts : List Triple) (convs : List (List Message))
    (dbg : List DebugRecord) (h : parseWhatsappChat ts = .ok (convs, dbg)) :
    ∀ k cv j m, convs[k]? = some cv → cv[j]? = some m →
      m.conversation_id = convIdSpec k j := by
  unfold parseWhatsappChat at h
  cases hloop : parseLoop initState ts with
  | error e => rw [hloop] at h; cases h
  | ok st =>
    rw [hloop] at h
    obtain ⟨h1, h2, h3, _, _⟩ := parseLoop_convIdInv initState st hloop convIdInv_init
    cases h
    intro k cv j m hk hj
    by_cases hc : st.current.isEmpty
    · rw [if_pos hc] at hk
      exact h2 k cv j m hk hj
    · rw [if_neg hc] at hk
      by_cases hlt : k < st.convs.length
      · rw [List.getElem?_append, if_pos hlt] at hk
        exact h2 k cv j m hk hj
      · rw [List.getElem?_append, if_neg hlt] at hk
        rcases hd : k - st.convs.length with _ | k1
        · rw [hd] at hk
          simp at hk
          subst hk
          have hk0 : k = st.convs.length := by omega
          rw [hk0]
          exact h3 j m hj
        · rw [hd] at hk
          simp at hk

theorem claim_C3_amended_witness :
    parseWhatsappChat c3Triples = .ok (c3Convs, c3Dbg) ∧
    c3Convs[1]? = some c3SecondConv ∧
    c3SecondConv[0]? = some c3BoundaryMsg ∧
    c3BoundaryMsg.conversation_id = convIdSpec 1 0 := by
  have h : parseWhatsappChat c3Triples = .ok (c3Convs, c3Dbg) := rfl
  have hk : c3Convs[1]? = some c3SecondConv := rfl
  have hj : c3SecondConv[0]? = some c3BoundaryMsg := rfl
  exact ⟨h, hk, hj, claim_C3_amended c3Triples c3Convs c3Dbg h 1 c3SecondConv 0 c3BoundaryMsg hk hj⟩

/-- Claim C3 as stated is false: in the transcript c3Triples the opening
message of the conversation at index 1 carries conversation_id 0. -/
theorem claim_C3_counterexample :
    parseWhatsappChat c3Triples = .ok (c3Convs, c3Dbg) ∧
    c3Convs[1]? = some c3SecondConv ∧
    c3SecondConv[0]? = some c3BoundaryMsg ∧
    c3BoundaryMsg.conversation_id = 0 ∧ (1 : Nat) ≠ 0 :=
  ⟨rfl, rfl, rfl, rfl, by omega⟩

theorem isSameRestaurant_refl (n : Str) : isSameRestaurant n n = true := by
  simp [isSameRestaurant]

theorem isSameRestaurant_symm (a b : Str) :
    isSameRestaurant a b = isSameRestaurant b a := by
  simp only [isSameRestaurant]
  by_cases heq : pyStrip (pyLower a) = pyStrip (pyLower b)
  · simp [heq]
  · have e1 : (pyStrip (pyLower a) == pyStrip (pyLower b)) = false := by
      simp only [beq_eq_false_iff_ne, ne_eq]
      exact heq
    have e2 : (pyStrip (pyLower b) == pyStrip (pyLower a)) = false := by
      simp only [beq_eq_false_iff_ne, ne_eq]
      exact Ne.symm heq
    rw [e1, e2]
    simp only [Bool.false_eq_true, if_false]
    set n1 := pyStrip (pyLower a) with hn1
    set n2 := pyStrip (pyLower b) with hn2
    set f1 := (pySplitWs n1).toFinset \ commonWords.toFinset with hf1
    set f2 := (pySplitWs n2).toFinset \ commonWords.toFinset with hf2
    by_cases hne : f1 ≠ ∅ ∧ f2 ≠ ∅
    · have hneR : f2 ≠ ∅ ∧ f1 ≠ ∅ := ⟨hne.2, hne.1⟩
      rw [if_pos hne, if_pos hneR]
      by_cases hsh : 5 * (f1 ∩ f2).card ≥ 4 * min f1.card f2.card
      · have hsh2 : 5 * (f2 ∩ f1).card ≥ 4 * min f2.card f1.card := by
          rwa [Finset.inter_comm, Nat.min_comm]
        rw [if_pos hsh, if_pos hsh2]
        rcases Nat.lt_trichotomy n1.length n2.length with hlt | heqL | hgt
        · have hnlt : ¬ n2.length < n1.length := by omega
          simp [hlt, hnlt]
        · have g1 : ¬ n1.length < n2.length := by omega
          have g2 : ¬ n2.length < n1.length := by omega
          have g3 : ¬ 2 * n1.length > 3 * n2.length := by omega
          have g4 : ¬ 2 * n2.length > 3 * n1.length := by omega
          simp [g1, g2, g3, g4]
        · have hnlt : ¬ n1.length < n2.length := by omega
          simp [hgt, hnlt]
      · have hsh2 : ¬ 5 * (f2 ∩ f1).card ≥ 4 * min f2.card f1.card := by
          rw [Finset.inter_comm, Nat.min_comm]
          exact hsh
        rw [if_neg hsh, if_neg hsh2]
    · have hne2 : ¬ (f2 ≠ ∅ ∧ f1 ≠ ∅) := fun hc => hne ⟨hc.2, hc.1⟩
      rw [if_neg hne, if_neg hne2]

/-- Claim C7: the same-restaurant relation is reflexive and symmetric on
all name pairs; transitivity is not claimed. -/
theorem claim_C7 :
    (∀ n : Str, isSameRestaurant n n = true) ∧
    (∀ a b : Str, isSameRestaurant a b = isSameRestaurant b a) :=
  ⟨isSameRestaurant_refl, isSameRestaurant_symm⟩

/-- Claim C9: a conversation id with no debug records in the loaded state
makes analyze_conversation_debug fail with the NotFoundError of the
specification, modelled by its error return. -/
theorem claim_C9 (convs : List (List Message)) (cid : Nat)
    (h : getConversationDebugSequence (extractDebugData convs) cid = []) :
    analyzeConversationDebug convs cid = .error .notFound := by
  simp only [analyzeConversationDebug, h, List.isEmpty_nil, if_true]

theorem claim_C9_witness :
    getConversationDebugSequence (extractDebugData c9Convs) 0 = [] ∧
    analyzeConversationDebug c9Convs 0 = .error .notFound := by
  have h : getConversationDebugSequence (extractDebugData c9Convs) 0 = [] := rfl
  exact ⟨h, claim_C9 c9Convs 0 h⟩

theorem buildRecItem_id {st : ParserState} {i : Nat} {conv : List Message}
    {rmsg : Message} {item : RecItem}
    (h : buildRecItem st i conv rmsg = .ok item) : item.conversation_id = i := by
  unfold buildRecItem at h
  cases hc : candidateRestaurantsOf st conv with
  | error e => rw [hc] at h; cases h
  | ok cands =>
    rw [hc] at h
    cases h
    rfl

theorem extractRecsAux_ids (st : ParserState) :
    ∀ (convs : List (List Message)) (i : Nat) (recs : List RecItem),
      extractRecsAux st i convs = .ok recs →
      recs.map (fun r => r.conversation_id) =
        ((convs.enumFrom i).filter
          (fun p => (p.2.find? (fun m => m.mtype == MsgType.recommendation)).isSome)).map (·.1) := by
  intro convs
  induction convs with
  | nil =>
    intro i recs h
    cases h
    rfl
  | cons conv rest ih =>
    intro i recs h
    rw [extractRecsAux] at h
    split at h
    · rename_i rmsg hf
      cases hb : buildRecItem st i conv rmsg with
      | error e =>
        rw [hb] at h
        cases h
      | ok item =>
        rw [hb] at h
        cases ha : extractRecsAux st (i + 1) rest with
        | error e =>
          rw [ha] at h
          cases h
        | ok others =>
          rw [ha] at h
          cases h
          rw [List.enumFrom]
          simp only [List.filter_cons, hf, Option.isSome_some, if_true, List.map_cons]
          rw [buildRecItem_id hb, ih (i + 1) others ha]
    · rename_i hf
      rw [List.enumFrom]
      simp only [List.filter_cons, hf, Option.isSome_none, Bool.false_eq_true, if_false]
      exact ih (i + 1) recs h

/-- Claim C10: extract_restaurant_recommendations returns exactly one
record per conversation containing a recommendation-typed message, in
conversation order, each record's conversation_id being that conversation's
index; conversations without a recommendation message produce no record,
so the sequence may be shorter than the conversation list. -/
theorem claim_C10 (st : ParserState) (recs : List RecItem)
    (h : extractRestaurantRecommendations st = .ok recs) :
    recs.map (fun r => r.conversation_id) =
      ((st.conversations.enum).filter
        (fun p => (p.2.find? (fun m => m.mtype == MsgType.recommendation)).isSome)).map (·.1) :=
  extractRecsAux_ids st st.conversations 0 recs h

theorem claim_C10_witness :
    extractRestaurantRecommendations c10State = .ok c10Recs ∧
    c10Recs.map (fun r => r.conversation_id) =
      ((c10State.conversations.enum).filter
        (fun p => (p.2.find? (fun m => m.mtype == MsgType.recommendation)).isSome)).map (·.1) := by
  have h : extractRestaurantRecommendations c10State = .ok c10Recs := rfl
  exact ⟨h, claim_C10 c10State c10Recs h⟩

theorem matchedCount_le (expected actual : List Str) :
    matchedCount expected actual ≤ expected.length :=
  List.length_filter_le _ _

theorem matchedCount_nil_right (expected : List Str) : matchedCount expected [] = 0 := by
  unfold matchedCount
  simp

/-- Claim C5: evaluate_recommendations computes accuracy = recall =
matches/|expected|, precision = matches/|actual| (0 when actual is empty,
which the rational division by zero also yields), extra_count =
max(0, |actual| - matches) and missing_count = |expected| - matches; and
on the reference scenario the case-insensitively matched persona evaluates
to accuracy 0.5, precision 0.5 and missing_count 1. -/
theorem claim_C5 :
    (∀ expected actual : List Str,
      (evalLists expected actual).accuracy =
        (matchedCount expected actual : ℚ) / (expected.length : ℚ) ∧
      (evalLists expected actual).«recall» =
        (matchedCount expected actual : ℚ) / (expected.length : ℚ) ∧
      (evalLists expected actual).precision =
        (matchedCount expected actual : ℚ) / (actual.length : ℚ) ∧
      ((evalLists expected actual).extra_count : ℤ) =
        max 0 ((actual.length : ℤ) - (matchedCount expected actual : ℤ)) ∧
      ((evalLists expected actual).missing_count : ℤ) =
        (expected.length : ℤ) - (matchedCount expected actual : ℤ)) ∧
    matchConversationToPersona c5Tabs c5Conv = some "P1".data ∧
    (evaluateRecommendations c5Tabs c5Conv (matchConversationToPersona c5Tabs c5Conv)).accuracy
      = 1 / 2 ∧
    (evaluateRecommendations c5Tabs c5Conv (matchConversationToPersona c5Tabs c5Conv)).precision
      = 1 / 2 ∧
    (evaluateRecommendations c5Tabs c5Conv
      (matchConversationToPersona c5Tabs c5Conv)).missing_count = 1 := by
  have hforms : ∀ expected actual : List Str,
      (evalLists expected actual).accuracy =
        (matchedCount expected actual : ℚ) / (expected.length : ℚ) ∧
      (evalLists expected actual).«recall» =
        (matchedCount expected actual : ℚ) / (expected.length : ℚ) ∧
      (evalLists expected actual).precision =
        (matchedCount expected actual : ℚ) / (actual.length : ℚ) ∧
      ((evalLists expected actual).extra_count : ℤ) =
        max 0 ((actual.length : ℤ) - (matchedCount expected actual : ℤ)) ∧
      ((evalLists expected actual).missing_count : ℤ) =
        (expected.length : ℤ) - (matchedCount expected actual : ℤ) := by
    intro E A
    have hm : matchedCount E A ≤ E.length := matchedCount_le E A
    refine ⟨?_, ?_, ?_, ?_, ?_⟩
    · by_cases hE : E.isEmpty
      · have hE0 : E = [] := List.isEmpty_iff.mp hE
        subst hE0
        simp [evalLists, matchedCount]
      · simp [evalLists, matchedCount, hE]
    · by_cases hE : E.isEmpty
      · have hE0 : E = [] := List.isEmpty_iff.mp hE
        subst hE0
        simp [evalLists, matchedCount]
      · simp [evalLists, matchedCount, hE]
    · by_cases hA : A.isEmpty
      · have hA0 : A = [] := List.isEmpty_iff.mp hA
        subst hA0
        simp [evalLists, matchedCount]
      · simp [evalLists, matchedCount, hA]
    · show (((if A.length > matchedCount E A then A.length - matchedCount E A else 0) : ℕ) : ℤ) = _
      by_cases hgt : A.length > matchedCount E A
      · rw [if_pos hgt, max_eq_right (by omega)]
        omega
      · rw [if_neg hgt, max_eq_left (by omega)]
        rfl
    · show (((E.length - matchedCount E A) : ℕ) : ℤ) = _
      omega
  have hmatch : matchConversationToPersona c5Tabs c5Conv = some "P1".data := by decide
  have hred : evaluateRecommendations c5Tabs c5Conv (matchConversationToPersona c5Tabs c5Conv) =
      evalLists ["Osteria Francescana".data, "Il Ristorante".data] (extractActualCP c5Conv) := by
    rw [hmatch]
    rfl
  have hact : extractActualCP c5Conv =
      ["Osteria Francescana".data, "Trattoria Bella".data] := by decide
  have hmc : matchedCount ["Osteria Francescana".data, "Il Ristorante".data]
      ["Osteria Francescana".data, "Trattoria Bella".data] = 1 := by decide
  refine ⟨hforms, hmatch, ?_, ?_, ?_⟩
  · rw [hred, hact, (hforms _ _).1, hmc]
    norm_num
  · rw [hred, hact, (hforms _ _).2.2.1, hmc]
    norm_num
  · rw [hred, hact]
    decide

/-
  Lemmas characterising the persona input dictionary.
-/

theorem mem_keysFirstOrder (l : List (Str × Str)) (k : Str) :
    k ∈ keysFirstOrder l ↔ k ∈ l.map Prod.fst := by
  induction l with
  | nil => simp [keysFirstOrder]
  | cons p rest ih =>
    obtain ⟨k1, v1⟩ := p
    simp only [keysFirstOrder, List.map_cons, List.mem_cons]
    constructor
    · rintro (rfl | hmem)
      · exact Or.inl rfl
      · exact Or.inr (ih.mp (List.mem_of_mem_filter hmem))
    · rintro (rfl | hmem)
      · exact Or.inl rfl
      · by_cases hk : k = k1
        · exact Or.inl hk
        · exact Or.inr (List.mem_filter.mpr ⟨ih.mpr hmem, by simp [hk]⟩)

theorem keysFirstOrder_nodup (l : List (Str × Str)) : (keysFirstOrder l).Nodup := by
  induction l with
  | nil => simp [keysFirstOrder]
  | cons p rest ih =>
    obtain ⟨k1, v1⟩ := p
    simp only [keysFirstOrder]
    rw [List.nodup_cons]
    refine ⟨?_, List.Nodup.filter _ ih⟩
    intro hmem
    have h := (List.mem_filter.mp hmem).2
    simp at h

theorem keysFirstOrder_append_single (l : List (Str × Str)) (p : Str × Str) :
    keysFirstOrder (l ++ [p]) =
      if p.1 ∈ keysFirstOrder l then keysFirstOrder l else keysFirstOrder l ++ [p.1] := by
  induction l with
  | nil =>
    obtain ⟨k, v⟩ := p
    simp [keysFirstOrder]
  | cons q rest ih =>
    obtain ⟨k1, v1⟩ := q
    have hcons : ∀ (xs : List (Str × Str)),
        keysFirstOrder ((k1, v1) :: xs) = k1 :: (keysFirstOrder xs).filter (fun x => x != k1) :=
      fun xs => rfl
    rw [List.cons_append, hcons, hcons, ih]
    by_cases hmem : p.1 ∈ keysFirstOrder rest
    · have hmem2 : p.1 ∈ k1 :: (keysFirstOrder rest).filter (fun x => x != k1) := by
        by_cases hk : p.1 = k1
        · simp [hk]
        · exact List.mem_cons_of_mem _ (List.mem_filter.mpr ⟨hmem, by simp [hk]⟩)
      rw [if_pos hmem, if_pos hmem2]
    · by_cases hk : p.1 = k1
      · have hmem2 : p.1 ∈ k1 :: (keysFirstOrder rest).filter (fun x => x != k1) := by
          simp [hk]
        rw [if_neg hmem, if_pos hmem2, List.filter_append]
        simp [hk]
      · have hmem2 : p.1 ∉ k1 :: (keysFirstOrder rest).filter (fun x => x != k1) := by
          simp only [List.mem_cons, not_or]
          exact ⟨hk, fun hin => hmem (List.mem_of_mem_filter hin)⟩
        rw [if_neg hmem, if_neg hmem2, List.filter_append]
        simp [hk]

theorem lastValueFor_append_same (l : List (Str × Str)) (p : Str × Str) :
    lastValueFor p.1 (l ++ [p]) = p.2 := by
  unfold lastValueFor
  rw [List.filter_append]
  have hsingle : List.filter (fun q => q.1 == p.1) [p] = [p] := by simp
  rw [hsingle, List.getLast?_concat]
  rfl

theorem lastValueFor_append_ne (l : List (Str × Str)) (p : Str × Str) (k : Str)
    (h : k ≠ p.1) :
    lastValueFor k (l ++ [p]) = lastValueFor k l := by
  unfold lastValueFor
  rw [List.filter_append]
  have hsingle : List.filter (fun q => q.1 == k) [p] = [] := by
    simp [Ne.symm h]
  rw [hsingle, List.append_nil]

theorem dictSet_map_not_mem (ks : List Str) (g : Str → Str) (k v : Str) (h : k ∉ ks) :
    dictSet k v (ks.map (fun k1 => (k1, g k1))) = ks.map (fun k1 => (k1, g k1)) ++ [(k, v)] := by
  induction ks with
  | nil => rfl
  | cons k1 rest ih =>
    simp only [List.map_cons, dictSet]
    have hne : (k1 == k) = false := by
      simp only [beq_eq_false_iff_ne, ne_eq]
      intro hk
      exact h (hk ▸ List.mem_cons_self k1 rest)
    rw [hne]
    simp only [Bool.false_eq_true, if_false, List.cons_append, List.cons.injEq, true_and]
    exact ih (fun hm => h (List.mem_cons_of_mem _ hm))

theorem dictSet_map_mem (ks : List Str) (g : Str → Str) (k v : Str)
    (hnd : ks.Nodup) (h : k ∈ ks) :
    dictSet k v (ks.map (fun k1 => (k1, g k1))) =
      ks.map (fun k1 => (k1, if k1 = k then v else g k1)) := by
  induction ks with
  | nil => cases h
  | cons k1 rest ih =>
    rw [List.nodup_cons] at hnd
    simp only [List.map_cons, dictSet]
    by_cases hk : k1 = k
    · subst hk
      rw [show (k1 == k1) = true by simp]
      simp only [if_true, List.cons.injEq]
      refine ⟨by simp, ?_⟩
      apply List.map_congr_left
      intro x hx
      have hxk : x ≠ k1 := fun hxe => hnd.1 (hxe ▸ hx)
      simp [hxk]
    · have hne : (k1 == k) = false := by
        simp only [beq_eq_false_iff_ne, ne_eq]
        exact hk
      rw [hne]
      simp only [Bool.false_eq_true, if_false, List.cons.injEq]
      refine ⟨by simp [hk], ?_⟩
      exact ih hnd.2 (by rcases List.mem_cons.mp h with rfl | hm; exact absurd rfl hk; exact hm)

theorem dictFold_spec (l : List (Str × Str)) :
    l.foldl (fun d p => dictSet p.1 p.2 d) [] =
      (keysFirstOrder l).map (fun k => (k, lastValueFor k l)) := by
  induction l using List.reverseRecOn with
  | nil => rfl
  | append_singleton l p ih =>
    rw [List.foldl_append, List.foldl_cons, List.foldl_nil, ih,
        keysFirstOrder_append_single]
    by_cases hmem : p.1 ∈ keysFirstOrder l
    · rw [if_pos hmem]
      rw [dictSet_map_mem _ _ _ _ (keysFirstOrder_nodup l) hmem]
      apply List.map_congr_left
      intro k hk
      by_cases hkp : k = p.1
      · subst hkp
        simp [lastValueFor_append_same]
      · simp [hkp, lastValueFor_append_ne l p k hkp]
    · rw [if_neg hmem]
      rw [dictSet_map_not_mem _ _ _ _ hmem, List.map_append]
      congr 1
      · apply List.map_congr_left
        intro k hk
        have hkp : k ≠ p.1 := fun hh => hmem (hh ▸ hk)
        rw [lastValueFor_append_ne l p k hkp]
      · simp [lastValueFor_append_same]

theorem loadPersonas_inputs_fold :
    ∀ (rows : List PersonaRow) (tabs : PersonaTables),
      (rows.foldl loadPersonaRow tabs).persona_inputs =
        (personaInputEntries rows).foldl (fun d p => dictSet p.1 p.2 d) tabs.persona_inputs := by
  intro rows
  induction rows with
  | nil => intro tabs; rfl
  | cons row rest ih =>
    intro tabs
    rw [List.foldl_cons, ih (loadPersonaRow tabs row)]
    cases hno : row.no with
    | none => simp [personaInputEntries, List.filterMap_cons, hno, loadPersonaRow]
    | some pid =>
      by_cases hpid : pid = []
      · simp [personaInputEntries, List.filterMap_cons, hno, hpid, loadPersonaRow]
      · by_cases hinp : row.input = []
        · simp [personaInputEntries, List.filterMap_cons, hno, hpid, hinp, loadPersonaRow]
        · simp [personaInputEntries, List.filterMap_cons, hno, hpid, hinp, loadPersonaRow]

/-- Claim C4 as stated is false: with two personas sharing the input
phrase alpha beta, a request covering that phrase fuzzy-matches to the
second persona, not to the first in table order as claimed, because the
lookup dictionary keeps one entry per case-folded phrase with the last
persona id. -/
theorem claim_C4_counterexample :
    matchConversationToPersona (loadPersonas c4Rows) c4Conv = some "2".data ∧
    specC4Match (loadPersonas c4Rows).personas c4Conv = some "1".data ∧
    ("2".data : Str) ≠ "1".data := by
  refine ⟨by decide, by decide, by decide⟩

/-- Claim C4, corrected: the match is computed over a dictionary holding
one entry per distinct case-folded input phrase, positioned at that
phrase's first occurrence in table order and carrying the persona id of
its last occurrence; exact case-insensitive lookup wins, otherwise the
first such entry passing the 0.70 word-coverage test, and with no match
(or an empty request) the conversation stays unassociated. -/
theorem claim_C4_amended (rows : List PersonaRow) (conv : List Message) (req : Str)
    (h1 : getUserRequest conv = some req) (h2 : req ≠ []) :
    (loadPersonas rows).persona_inputs = specDedupInputs rows ∧
    matchConversationToPersona (loadPersonas rows) conv = specC4AmendedMatch rows req := by
  have hinputs : (loadPersonas rows).persona_inputs = specDedupInputs rows := by
    unfold loadPersonas specDedupInputs
    rw [loadPersonas_inputs_fold rows ⟨[], [], []⟩]
    exact dictFold_spec (personaInputEntries rows)
  refine ⟨hinputs, ?_⟩
  unfold matchConversationToPersona specC4AmendedMatch
  rw [h1]
  have hne : req.isEmpty = false := by
    rcases req with _ | ⟨c, cs⟩
    · exact absurd rfl h2
    · rfl
  simp only [hne, Bool.false_eq_true, if_false, hinputs]

theorem claim_C4_amended_witness :
    getUserRequest c4Conv = some "alpha beta gamma".data ∧
    "alpha beta gamma".data ≠ ([] : Str) ∧
    (loadPersonas c4Rows).persona_inputs = specDedupInputs c4Rows ∧
    matchConversationToPersona (loadPersonas c4Rows) c4Conv =
      specC4AmendedMatch c4Rows "alpha beta gamma".data := by
  have h1 : getUserRequest c4Conv = some "alpha beta gamma".data := by decide
  have h2 : "alpha beta gamma".data ≠ ([] : Str) := by decide
  have h := claim_C4_amended c4Rows c4Conv "alpha beta gamma".data h1 h2
  exact ⟨h1, h2, h.1, h.2⟩


theorem parseStep_ok_fields {st st1 : LoopState} {t : Triple}
    (h : parseStep st t = .ok st1) (hcur : st.idx = 0 → st.current = []) :
    (st1.convs.flatten ++ st1.current).map
        (fun m => (m.sender, m.content, m.mtype, m.debug_info))
      = (st.convs.flatten ++ st.current).map
          (fun m => (m.sender, m.content, m.mtype, m.debug_info))
        ++ [(t.sender, pyStrip t.content,
             determineMessageType (pyStrip t.content) t.sender,
             if determineMessageType (pyStrip t.content) t.sender = MsgType.debug then
               extractDebugInfo (pyStrip t.content) else Option.none)] := by
  cases hts : strptimeFixed t.ts with
  | none => rw [parseStep_error hts] at h; cases h
  | some dt =>
    rw [parseStep_ok hts] at h
    cases h
    rcases stepBoundary_cases st t.sender with hb | ⟨hz, hb⟩ | ⟨_, hb⟩
    · simp [hb, mkParsedMessage]
    · simp [hb, hcur hz, mkParsedMessage]
    · simp [hb, mkParsedMessage, List.flatten_append]

theorem parseLoop_ok_fields {ts : List Triple} :
    ∀ st st', parseLoop st ts = .ok st' → (st.idx = 0 → st.current = []) →
      (st'.convs.flatten ++ st'.current).map
          (fun m => (m.sender, m.content, m.mtype, m.debug_info))
        = (st.convs.flatten ++ st.current).map
            (fun m => (m.sender, m.content, m.mtype, m.debug_info))
          ++ ts.map (fun t => (t.sender, pyStrip t.content,
              determineMessageType (pyStrip t.content) t.sender,
              if determineMessageType (pyStrip t.content) t.sender = MsgType.debug then
                extractDebugInfo (pyStrip t.content) else Option.none)) := by
  induction ts with
  | nil =>
    intro st st' h _
    cases h
    simp
  | cons t rest ih =>
    intro st st' h hcur
    rw [parseLoop] at h
    cases hstep : parseStep st t with
    | error e => rw [hstep] at h; cases h
    | ok st1 =>
      rw [hstep] at h
      have h1 := parseStep_ok_fields hstep hcur
      have h2 := ih st1 st' h (fun hz => by
        have := parseStep_ok_idx hstep
        omega)
      rw [h2, h1]
      simp

theorem parseWhatsappChat_fields {ts : List Triple} {convs : List (List Message)}
    {dbg : List DebugRecord} (h : parseWhatsappChat ts = .ok (convs, dbg)) :
    convs.flatten.map (fun m => (m.sender, m.content, m.mtype, m.debug_info))
      = ts.map (fun t => (t.sender, pyStrip t.content,
          determineMessageType (pyStrip t.content) t.sender,
          if determineMessageType (pyStrip t.content) t.sender = MsgType.debug then
            extractDebugInfo (pyStrip t.content) else Option.none)) := by
  unfold parseWhatsappChat at h
  cases hloop : parseLoop initState ts with
  | error e => rw [hloop] at h; cases h
  | ok st =>
    rw [hloop] at h
    have hf := parseLoop_ok_fields initState st hloop (fun _ => rfl)
    simp only [initState, List.flatten_nil, List.nil_append, List.map_nil] at hf
    injection h with h'
    injection h' with hconv hdbg
    subst hconv
    have hflat : (if st.current.isEmpty then st.convs
        else st.convs ++ [st.current]).flatten
        = st.convs.flatten ++ st.current := by
      by_cases hc : st.current.isEmpty = true
      · rw [if_pos hc, List.isEmpty_iff.mp hc]
        simp
      · rw [if_neg hc]
        simp
    rw [hflat, hf]

theorem filterMap_eraseIdx_none {α β : Type} (f : α → Option β) :
    ∀ (l : List α) (j : Nat) (x : α), l[j]? = some x → f x = Option.none →
      (l.eraseIdx j).filterMap f = l.filterMap f := by
  intro l
  induction l with
  | nil =>
    intro j x h _
    simp at h
  | cons a rest ih =>
    intro j x h hf
    cases j with
    | zero =>
      simp only [List.getElem?_cons_zero, Option.some.injEq] at h
      subst h
      simp [List.eraseIdx_cons_zero, List.filterMap_cons, hf]
    | succ j =>
      simp only [List.getElem?_cons_succ] at h
      rw [List.eraseIdx_cons_succ]
      cases hfa : f a <;> simp [List.filterMap_cons, hfa, ih j x h hf]

theorem extractConvDebug_eraseIdx {cid : Nat} {msgs : List Message} {j : Nat} {m : Message}
    (hj : msgs[j]? = some m) (hni : m.debug_info = Option.none) :
    extractConvDebug cid (msgs.eraseIdx j) = extractConvDebug cid msgs := by
  unfold extractConvDebug
  apply filterMap_eraseIdx_none _ msgs j m hj
  by_cases hmt : (m.mtype == MsgType.debug) = true <;> simp [hmt, hni]

theorem extractDebugDataAux_set_eraseIdx :
    ∀ (convs : List (List Message)) (cid0 k j : Nat) (cm : List Message) (m : Message),
      convs[k]? = some cm → cm[j]? = some m → m.debug_info = Option.none →
      extractDebugDataAux cid0 (convs.set k (cm.eraseIdx j))
        = extractDebugDataAux cid0 convs := by
  intro convs
  induction convs with
  | nil =>
    intro cid0 k j cm m hk _ _
    simp at hk
  | cons cHead rest ih =>
    intro cid0 k j cm m hk hj hni
    cases k with
    | zero =>
      simp only [List.getElem?_cons_zero, Option.some.injEq] at hk
      subst hk
      rw [List.set_cons_zero]
      simp only [extractDebugDataAux]
      rw [extractConvDebug_eraseIdx hj hni]
    | succ k =>
      simp only [List.getElem?_cons_succ] at hk
      rw [List.set_cons_succ]
      simp only [extractDebugDataAux]
      rw [ih (cid0 + 1) k j cm m hk hj hni]

theorem extractFromMsgs_eraseIdx :
    ∀ (msgs : List Message) (j : Nat) (m : Message), msgs[j]? = some m →
      (m.mtype == MsgType.recommendation) = false →
      extractFromMsgs (msgs.eraseIdx j) = extractFromMsgs msgs := by
  intro msgs
  induction msgs with
  | nil =>
    intro j m h _
    simp at h
  | cons a rest ih =>
    intro j m hj hne
    cases j with
    | zero =>
      simp only [List.getElem?_cons_zero, Option.some.injEq] at hj
      subst hj
      rw [List.eraseIdx_cons_zero]
      conv_rhs => rw [extractFromMsgs]
      simp [hne]
    | succ j =>
      simp only [List.getElem?_cons_succ] at hj
      rw [List.eraseIdx_cons_succ]
      simp only [extractFromMsgs]
      rw [ih j m hj hne]

theorem extractRecommendedRestaurants_set_eraseIdx
    {convs : List (List Message)} {k j : Nat} {cm : List Message} {m : Message}
    (hk : convs[k]? = some cm) (hj : cm[j]? = some m)
    (hne : (m.mtype == MsgType.recommendation) = false) (cid : Nat) :
    extractRecommendedRestaurants (convs.set k (cm.eraseIdx j)) cid
      = extractRecommendedRestaurants convs cid := by
  have hhd : ∀ (l2 : List (List Message)), l2.headD [] = l2.head?.getD [] := by
    intro l2
    cases l2 <;> rfl
  unfold extractRecommendedRestaurants
  rw [hhd, hhd, List.head?_drop, List.head?_drop]
  by_cases hck : cid = k
  · subst hck
    have hlen : cid < convs.length := by
      rcases List.getElem?_eq_some.mp hk with ⟨h, _⟩
      exact h
    rw [List.getElem?_set_self (by simpa using hlen), hk]
    exact extractFromMsgs_eraseIdx cm j m hj hne
  · rw [List.getElem?_set_ne (Ne.symm hck)]

theorem analyzeRecommendations_set_eraseIdx
    {convs : List (List Message)} {k j : Nat} {cm : List Message} {m : Message}
    (hk : convs[k]? = some cm) (hj : cm[j]? = some m)
    (hne : (m.mtype == MsgType.recommendation) = false)
    (cc : List (Nat × List (Str × Str))) :
    analyzeRecommendations (convs.set k (cm.eraseIdx j)) cc
      = analyzeRecommendations convs cc := by
  unfold analyzeRecommendations
  rw [List.length_set]
  apply List.foldl_ext
  intro maps cid _
  rw [extractRecommendedRestaurants_set_eraseIdx hk hj hne cid]

theorem loadConversations_set_eraseIdx
    {convs : List (List Message)} {k j : Nat} {cm : List Message} {m : Message}
    (hk : convs[k]? = some cm) (hj : cm[j]? = some m)
    (hdbg : m.mtype = MsgType.debug) (hni : m.debug_info = Option.none) :
    loadConversations (convs.set k (cm.eraseIdx j)) = loadConversations convs := by
  have hne : (m.mtype == MsgType.recommendation) = false := by
    rw [hdbg]
    rfl
  have hext : extractDebugData (convs.set k (cm.eraseIdx j)) = extractDebugData convs :=
    extractDebugDataAux_set_eraseIdx convs 0 k j cm m hk hj hni
  simp only [loadConversations, hext, List.length_set,
    analyzeRecommendations_set_eraseIdx hk hj hne]

/-- Claim C6: a debug-typed message whose embedded payload literal fails to
parse does not abort parsing.  Part one: whenever every timestamp of the
transcript is well formed, parse_whatsapp_chat succeeds and the message at
the position of the malformed debug triple appears in the returned
conversations with mtype debug and debug_info none.  Part two: deleting
such a message from the loaded conversations leaves load_conversations,
and hence every count reported by generate_global_insights, unchanged. -/
theorem claim_C6 :
    (∀ (ts : List Triple) (i : Nat) (t : Triple),
      (∀ t1 ∈ ts, (strptimeFixed t1.ts).isSome) → ts[i]? = some t →
      determineMessageType (pyStrip t.content) t.sender = MsgType.debug →
      extractDebugInfo (pyStrip t.content) = Option.none →
      ∃ (convs : List (List Message)) (dbg : List DebugRecord) (m : Message),
        parseWhatsappChat ts = .ok (convs, dbg) ∧
        convs.flatten[i]? = some m ∧ m.mtype = MsgType.debug ∧
        m.debug_info = Option.none) ∧
    (∀ (convs : List (List Message)) (k j : Nat) (cm : List Message) (m : Message),
      convs[k]? = some cm → cm[j]? = some m → m.mtype = MsgType.debug →
      m.debug_info = Option.none →
      loadConversations (convs.set k (cm.eraseIdx j)) = loadConversations convs ∧
      (loadConversations (convs.set k (cm.eraseIdx j))).map basicStats
        = (loadConversations convs).map basicStats) := by
  constructor
  · intro ts i t hall ht htype hbad
    obtain ⟨st, hloop⟩ := parseLoop_ok_of_all hall initState
    have hpw : parseWhatsappChat ts
        = .ok (if st.current.isEmpty then st.convs else st.convs ++ [st.current],
               st.debugData) := by
      unfold parseWhatsappChat
      rw [hloop]
    have hf := parseWhatsappChat_fields hpw
    have hi : (if st.current.isEmpty then st.convs
          else st.convs ++ [st.current]).flatten[i]?.map
            (fun m => (m.sender, m.content, m.mtype, m.debug_info))
        = some (t.sender, pyStrip t.content,
            determineMessageType (pyStrip t.content) t.sender,
            if determineMessageType (pyStrip t.content) t.sender = MsgType.debug then
              extractDebugInfo (pyStrip t.content) else Option.none) := by
      rw [← List.getElem?_map, hf, List.getElem?_map, ht]
      rfl
    cases hx : (if st.current.isEmpty then st.convs
        else st.convs ++ [st.current]).flatten[i]? with
    | none =>
      rw [hx] at hi
      cases hi
    | some m =>
      rw [hx] at hi
      have hFm : (m.sender, m.content, m.mtype, m.debug_info)
          = (t.sender, pyStrip t.content,
             determineMessageType (pyStrip t.content) t.sender,
             if determineMessageType (pyStrip t.content) t.sender = MsgType.debug then
               extractDebugInfo (pyStrip t.content) else Option.none) :=
        Option.some.inj hi
      have h3 : m.mtype = determineMessageType (pyStrip t.content) t.sender :=
        congrArg (fun p : Str × Str × MsgType × Option DebugInfo => p.2.2.1) hFm
      have h4 : m.debug_info
          = (if determineMessageType (pyStrip t.content) t.sender = MsgType.debug then
              extractDebugInfo (pyStrip t.content) else Option.none) :=
        congrArg (fun p : Str × Str × MsgType × Option DebugInfo => p.2.2.2) hFm
      refine ⟨_, _, m, hpw, hx, ?_, ?_⟩
      · rw [h3]
        exact htype
      · rw [h4, if_pos htype, hbad]
  · intro convs k j cm m hk hj hdbg hni
    have h := loadConversations_set_eraseIdx hk hj hdbg hni
    exact ⟨h, by rw [h]⟩

theorem claim_C6_witness :
    (∃ (convs : List (List Message)) (dbg : List DebugRecord) (m : Message),
      parseWhatsappChat c6Triples = .ok (convs, dbg) ∧
      convs.flatten[1]? = some m ∧ m.mtype = MsgType.debug ∧
      m.debug_info = Option.none) ∧
    loadConversations (c6Convs.set 0 (c6Conv0.eraseIdx 1)) = loadConversations c6Convs := by
  constructor
  · exact claim_C6.1 c6Triples 1 ⟨tsA, "Concierge".data, c6Bad⟩
      (by decide) rfl (by decide) (by rfl)
  · exact (claim_C6.2 c6Convs 0 1 c6Conv0 c6BadMsg rfl rfl (by decide) (by rfl)).1

theorem dictGet?_cons {α β : Type} [BEq α] (k1 : α) (v : β) (rest : List (α × β)) (k : α) :
    dictGet? k ((k1, v) :: rest) = if (k1 == k) = true then some v else dictGet? k rest := by
  by_cases h : (k1 == k) = true
  · simp [dictGet?, List.find?_cons_of_pos, h]
  · simp [dictGet?, List.find?_cons_of_neg, h]

theorem crmTotal_cons (k1 : Str) (c : List (Str × Nat))
    (rest : List (Str × List (Str × Nat))) (cat : Str) :
    crmTotal ((k1, c) :: rest) cat
      = if (k1 == cat) = true then (c.map (·.2)).sum else crmTotal rest cat := by
  by_cases h : (k1 == cat) = true
  · simp [crmTotal, dictGet?_cons, h]
  · simp [crmTotal, dictGet?_cons, h]

theorem cincr_total {α : Type} [BEq α] (k : α) :
    ∀ c : List (α × Nat), ((cincr k c).map (·.2)).sum = (c.map (·.2)).sum + 1 := by
  intro c
  induction c with
  | nil => rfl
  | cons p rest ih =>
    obtain ⟨k1, v⟩ := p
    by_cases h : (k1 == k) = true
    · simp [cincr, h]
      omega
    · simp [cincr, h, ih]
      omega

theorem bumpCounterMap_crmTotal (k r cat : Str) :
    ∀ m : List (Str × List (Str × Nat)),
      crmTotal (bumpCounterMap k r m) cat
        = crmTotal m cat + (if (k == cat) = true then 1 else 0) := by
  intro m
  induction m with
  | nil =>
    simp only [bumpCounterMap]
    rw [crmTotal_cons]
    by_cases h : (k == cat) = true
    · rw [if_pos h, if_pos h]
      simp [cincr, crmTotal, dictGet?]
    · rw [if_neg h, if_neg h]
      simp
  | cons p rest ih =>
    obtain ⟨k1, c⟩ := p
    simp only [bumpCounterMap]
    by_cases h1 : (k1 == k) = true
    · rw [if_pos h1, crmTotal_cons, crmTotal_cons]
      by_cases h2 : (k1 == cat) = true
      · rw [if_pos h2, if_pos h2, cincr_total]
        have hk : (k == cat) = true :=
          beq_iff_eq.mpr ((eq_of_beq h1).symm.trans (eq_of_beq h2))
        rw [if_pos hk]
      · rw [if_neg h2, if_neg h2]
        have hk : ¬(k == cat) = true := fun hc =>
          h2 (beq_iff_eq.mpr ((eq_of_beq h1).trans (eq_of_beq hc)))
        rw [if_neg hk]
        omega
    · rw [if_neg h1, crmTotal_cons, crmTotal_cons]
      by_cases h2 : (k1 == cat) = true
      · rw [if_pos h2, if_pos h2]
        have hk : ¬(k == cat) = true := fun hc =>
          h1 (beq_iff_eq.mpr ((eq_of_beq h2).trans (eq_of_beq hc).symm))
        rw [if_neg hk]
        omega
      · rw [if_neg h2, if_neg h2, ih]

end Concierge
